/-
  Verification of the CodeAtlas static-analysis pipeline.

  This file gives a shallow embedding, in Lean 4, of the core of the
  CodeAtlas scanner (scan.service.js, relationshipBuilder.js,
  featureDetector.js) and proves properties of it: import-resolution
  soundness, classification rules, relationship-graph invariants and
  feature-detection behaviour.

  Conventions of the embedding:
  - JavaScript strings are Lean `String`s; the scanner only ever feeds
    ASCII source text through these functions, so JS regex classes are
    modelled on ASCII (for example the class \s is modelled by the six
    ASCII whitespace characters).
  - `Set<string>` objects that are only used for membership tests are
    modelled as `List String` with `contains`; sets used for ordered
    accumulation are lists deduplicated in first-insertion order,
    matching the iteration order of a JS `Set`.
  - Fallible results (`string | null`) are `Option String`.
  - Node path helpers (`path.dirname`, `path.join`) are modelled in their
    POSIX form on the relative, forward-slash project paths the scanner
    passes to them.
-/
import Mathlib

namespace CodeAtlas

/-! Basic JS string helpers. -/

/-- The character code of a single quote (JS `'`). -/
def quoteS : Char := Char.ofNat 39

/-- The character code of a double quote (JS `"`). -/
def quoteD : Char := Char.ofNat 34

/-- The character code of a backtick (JS template quote). -/
def quoteB : Char := Char.ofNat 96

/-- The opening brace character. -/
def braceL : Char := Char.ofNat 123

/-- The closing brace character. -/
def braceR : Char := Char.ofNat 125

/-- JS `a.startsWith(b)`, on the character lists of the strings. -/
def strStartsWith (s p : String) : Bool := List.isPrefixOf p.data s.data

/-- JS `a.endsWith(b)`, on the character lists of the strings. -/
def strEndsWith (s p : String) : Bool := List.isSuffixOf p.data s.data

/-- JS `s.substring(n)` for an in-range start index. -/
def strDrop (s : String) (n : Nat) : String := String.mk (s.data.drop n)

/-- The first `n` characters of a string. -/
def strTake (s : String) (n : Nat) : String := String.mk (s.data.take n)

/-- Drop the final `n` characters of a string. -/
def strDropRight (s : String) (n : Nat) : String :=
  String.mk (s.data.take (s.data.length - n))

/-- JS `s.length` (the inputs of the scanner are ASCII). -/
def strLen (s : String) : Nat := s.data.length

/-- JS `s.toLowerCase()` (ASCII). -/
def strLower (s : String) : String := String.mk (s.data.map Char.toLower)

/-- JS `s.split(c)` for a single-character separator. -/
def splitCharAux (c : Char) : List Char → List Char → List (List Char)
  | [], acc => [acc.reverse]
  | x :: xs, acc =>
    if x = c then acc.reverse :: splitCharAux c xs []
    else splitCharAux c xs (x :: acc)

/-- JS `s.split(c)` for a single-character separator. -/
def splitChar (c : Char) (s : String) : List String :=
  (splitCharAux c s.data []).map String.mk

/-- JS `arr.join(sep)`. -/
def strJoin (sep : String) : List String → String
  | [] => ""
  | [x] => x
  | x :: xs => x ++ sep ++ strJoin sep xs

/-- Does `sub` occur as a contiguous run inside `l`? -/
def listInfixOf : List Char → List Char → Bool
  | sub, [] => List.isPrefixOf sub []
  | sub, l@(_ :: tl) => List.isPrefixOf sub l || listInfixOf sub tl

/-- JS `a.includes(b)`, on the character lists of the strings. -/
def strContains (s sub : String) : Bool := listInfixOf sub.data s.data

/-- JS `str.replace(/\\/g, '/')`: normalize Windows separators. -/
def jsNorm (s : String) : String :=
  String.mk (s.data.map (fun c => if c = '\\' then '/' else c))

/-- JS falsy test for a string: empty strings are falsy. -/
def jsTruthy (s : String) : Bool := s ≠ ""

/-- JS `str.replace(/\/$/, '')`: drop one trailing slash. -/
def stripTrailingSlash (s : String) : String :=
  if strEndsWith s "/" then strDropRight s 1 else s

/-! Node `path` helpers (POSIX form, as used on the forward-slash
    project-relative paths of a scan). -/

/-- Node `path.dirname` for a relative forward-slash path. -/
def pathDirname (p : String) : String :=
  let parts := splitChar '/' p
  if parts.length ≤ 1 then "."
  else
    let init := parts.dropLast
    if init = [""] then "/" else strJoin "/" init

/-- One step of path normalization: drop empty and `.` segments and let
    `..` pop the previous real segment (kept when there is nothing to
    pop, as for paths escaping the root).  The accumulator holds the
    output segments in reverse. -/
def normSegStep (acc : List String) (seg : String) : List String :=
  if seg = "" ∨ seg = "." then acc
  else if seg = ".." then
    match acc with
    | [] => [".."]
    | t :: r => if t = ".." then ".." :: acc else r
  else seg :: acc

/-- Node `path.join(a, b)` for relative forward-slash paths. -/
def pathJoin (a b : String) : String :=
  let segs := splitChar '/' a ++ splitChar '/' b
  let norm := (segs.foldl normSegStep []).reverse
  let r := strJoin "/" norm
  if r = "" then "." else r

/-! Import resolver (scan.service.js, `resolveImportPath`). -/

/-- Extension candidates tried by the alias branches of the resolver. -/
def ALIAS_EXTS : List String :=
  [".ts", ".tsx", ".js", ".jsx", ".mjs", ".cjs", ".vue", ".svelte"]

/-- Index-file candidates tried by the alias branches of the resolver. -/
def ALIAS_IDX : List String :=
  ["index.ts", "index.tsx", "index.js", "index.jsx"]

/-- Extension candidates tried by the final section of the resolver. -/
def RESOLVE_EXTS : List String :=
  [".js", ".ts", ".jsx", ".tsx", ".mjs", ".cjs", ".json", ".vue", ".svelte"]

/-- Index-file candidates tried by the final section of the resolver. -/
def RESOLVE_IDX : List String :=
  ["index.js", "index.ts", "index.jsx", "index.tsx", "index.mjs",
   "index.cjs", "index.json"]

/-- One alias-directory attempt of the resolver: exact match, then each
    extension, then each index file, first hit wins. -/
def tryCandidate (allFilePaths : List String) (cand : String) :
    Option String :=
  ([cand] ++ ALIAS_EXTS.map (fun e => cand ++ e)
    ++ ALIAS_IDX.map (fun i => cand ++ "/" ++ i)).find?
    (fun x => allFilePaths.contains x)

/-- The lazy match `normalizedFrom.match(/^(.+?\/src)\//)`: the shortest
    prefix (of length at least one) that is followed by `/src/`, with
    the `/src` included in the capture. -/
def srcPrefix (s : String) : Option String :=
  let cs := s.data
  let rec go (k : Nat) (rest : List Char) : Option String :=
    match rest with
    | [] => none
    | _ :: tl =>
      if k ≥ 1 ∧ List.isPrefixOf "/src/".data rest then
        some (String.mk (cs.take (k + 4)))
      else go (k + 1) tl
  go 0 cs

/-- The match `normalizedFrom.match(/^([^/]+)\//)`: the first path
    segment, when the path has a slash and does not begin with one. -/
def rootSeg (s : String) : Option String :=
  match splitChar '/' s with
  | [] => none
  | [_] => none
  | a :: _ => if a = "" then none else some a

/-- The final section of `resolveImportPath`: falsy check, exact match,
    extension candidates, then index-file candidates. -/
def finishResolve (allFilePaths : List String) (rp0 : Option String) :
    Option String :=
  match rp0 with
  | none => none
  | some rp =>
    if rp = "" then none
    else if allFilePaths.contains rp then some rp
    else
      match RESOLVE_EXTS.find? (fun e => allFilePaths.contains (rp ++ e)) with
      | some e => some (rp ++ e)
      | none =>
        match RESOLVE_IDX.find?
            (fun i => allFilePaths.contains (rp ++ "/" ++ i)) with
        | some i => some (rp ++ "/" ++ i)
        | none => none

/-- Does a raw specifier look external (no `.`, `/`, `@/`, `~/` prefix)?
    External packages are never resolved. -/
def isExternalSpecifier (importPath : String) : Bool :=
  ¬ (strStartsWith importPath "." ∨ strStartsWith importPath "/" ∨
     strStartsWith importPath "@/" ∨ strStartsWith importPath "~/")

/-- `resolveImportPath(importPath, fromFilePath, allFilePaths)` from
    scan.service.js: resolve a raw import specifier against the set of
    project paths, handling the `@/` and `~/` alias conventions,
    root-relative specifiers and relative specifiers. -/
def resolveImportPath (importPath fromFilePath : String)
    (allFilePaths : List String) : Option String :=
  if isExternalSpecifier importPath then none
  else
    let normalizedFrom := jsNorm fromFilePath
    let fromDir := pathDirname normalizedFrom
    let resolvedPath : Option String :=
      if strStartsWith importPath "@/" then
        let aliasPath := stripTrailingSlash (strDrop importPath 2)
        let base := ["src", "lib", "app", "components", "utils", "pages",
                     "routes"]
        let dirs1 :=
          match srcPrefix normalizedFrom with
          | some p => p :: base
          | none => base
        let aliasDirs :=
          match rootSeg normalizedFrom with
          | some root =>
            dirs1 ++ (["src", "lib", "app"].map
                (fun sub => root ++ "/" ++ sub)).filter
              (fun c => ¬ dirs1.contains c)
          | none => dirs1
        match aliasDirs.findSome?
            (fun d => tryCandidate allFilePaths (d ++ "/" ++ aliasPath)) with
        | some r => some r
        | none =>
          if allFilePaths.contains aliasPath then some aliasPath else none
      else if strStartsWith importPath "~/" then
        let aliasPath := stripTrailingSlash (strDrop importPath 2)
        ["src", "lib", "app"].findSome?
          (fun d => tryCandidate allFilePaths (d ++ "/" ++ aliasPath))
      else if strStartsWith importPath "/" then
        some (stripTrailingSlash (strDrop importPath 1))
      else
        some (stripTrailingSlash (jsNorm (pathJoin fromDir importPath)))
    finishResolve allFilePaths resolvedPath

/-! Exact fractions standing for the JS numbers of the scanner.  The
    only numbers the scanner compares are small exact fractions
    (`score/22`, `0.5`, `1`), for which JS float comparison agrees with
    exact rational comparison, so an unnormalized fraction with
    cross-multiplication comparisons is a faithful model that also
    evaluates inside the kernel. -/

/-- An unnormalized fraction with a positive denominator. -/
structure JsRat where
  num : Int
  den : Int
deriving Repr, DecidableEq

/-- JS division `a / b` for a positive `b`. -/
def jsDiv (a b : Int) : JsRat := ⟨a, b⟩

/-- A whole JS number. -/
def jsOfNat (n : Nat) : JsRat := ⟨n, 1⟩

/-- Comparison `a <= b` of fractions with positive denominators. -/
def jsLe (a b : JsRat) : Bool := a.num * b.den ≤ b.num * a.den

/-- Comparison `a < b` of fractions with positive denominators. -/
def jsLt (a b : JsRat) : Bool := a.num * b.den < b.num * a.den

/-- JS `Math.min` on two (NaN-free) numbers. -/
def jsMin (a b : JsRat) : JsRat := if jsLe a b then a else b

/-! A small regular-expression engine (Brzozowski derivatives), used to
    transcribe the JS regexes of the scanner.  Classes are Lean
    predicates on characters; `reTest` is JS `re.test(s)` for an
    unanchored pattern, `reTestStart` for a `^`-anchored pattern,
    `reTestEnd` for a `$`-anchored pattern and `reTestWhole` for a
    pattern anchored on both sides. -/

inductive RE where
  | fail
  | eps
  | cls (p : Char → Bool)
  | seq (a b : RE)
  | alt (a b : RE)
  | star (a : RE)

def RE.nullable : RE → Bool
  | .fail => false
  | .eps => true
  | .cls _ => false
  | .seq a b => a.nullable && b.nullable
  | .alt a b => a.nullable || b.nullable
  | .star _ => true

/-- Smart sequencing (keeps derivatives small). -/
def rseq : RE → RE → RE
  | .fail, _ => .fail
  | _, .fail => .fail
  | .eps, b => b
  | a, .eps => a
  | a, b => .seq a b

/-- Smart alternation (keeps derivatives small). -/
def ralt : RE → RE → RE
  | .fail, b => b
  | a, .fail => a
  | a, b => .alt a b

def RE.deriv : RE → Char → RE
  | .fail, _ => .fail
  | .eps, _ => .fail
  | .cls p, c => if p c then .eps else .fail
  | .seq a b, c =>
    if a.nullable then ralt (rseq (a.deriv c) b) (b.deriv c)
    else rseq (a.deriv c) b
  | .alt a b, c => ralt (a.deriv c) (b.deriv c)
  | .star a, c => rseq (a.deriv c) (.star a)

/-- Does some prefix of `cs` match `r`? -/
def reMatchesAt : RE → List Char → Bool
  | r, [] => r.nullable
  | r, c :: cs => r.nullable || reMatchesAt (r.deriv c) cs

/-- Does the whole of `cs` match `r`? -/
def reNullAfter (r : RE) (cs : List Char) : Bool :=
  (cs.foldl RE.deriv r).nullable

def reTestAux : RE → List Char → Bool
  | r, [] => r.nullable
  | r, l@(_ :: cs) => reMatchesAt r l || reTestAux r cs

def reTestEndAux : RE → List Char → Bool
  | r, [] => r.nullable
  | r, l@(_ :: cs) => reNullAfter r l || reTestEndAux r cs

/-- JS `re.test(s)` for an unanchored regex. -/
def reTest (r : RE) (s : String) : Bool := reTestAux r s.data

/-- JS `re.test(s)` for a regex anchored with a leading caret. -/
def reTestStart (r : RE) (s : String) : Bool := reMatchesAt r s.data

/-- JS `re.test(s)` for a regex anchored at the end. -/
def reTestEnd (r : RE) (s : String) : Bool := reTestEndAux r s.data

/-- JS `re.test(s)` for a regex anchored on both sides. -/
def reTestWhole (r : RE) (s : String) : Bool := reNullAfter r s.data

/-! Combinators used to transcribe the concrete JS regexes. -/

def rchar (c : Char) : RE := .cls (fun x => x = c)

/-- A case-insensitive character (for regexes with the `i` flag). -/
def rchari (c : Char) : RE := .cls (fun x => x.toLower = c.toLower)

def rstr (s : String) : RE :=
  s.data.foldr (fun c acc => rseq (rchar c) acc) .eps

def rstri (s : String) : RE :=
  s.data.foldr (fun c acc => rseq (rchari c) acc) .eps

def ralts : List RE → RE := fun l => l.foldr ralt .fail

def rcat : List RE → RE := fun l => l.foldr rseq .eps

def ropt (r : RE) : RE := ralt r .eps

def rplus (r : RE) : RE := rseq r (.star r)

/-- A character class listing its members. -/
def roneOf (s : String) : RE := .cls (fun c => s.data.contains c)

/-- A negated character class (matches newlines too, as in JS). -/
def rnoneOf (s : String) : RE := .cls (fun c => ¬ s.data.contains c)

/-- JS `\w`. -/
def wordChar (c : Char) : Bool := c.isAlphanum || c = '_'

/-- JS `\s` (ASCII part). -/
def wsChar (c : Char) : Bool :=
  c = ' ' ∨ c = '\t' ∨ c = '\n' ∨ c = '\r' ∨
  c = Char.ofNat 11 ∨ c = Char.ofNat 12

/-- JS `.` without the `s` flag: any character but a line terminator. -/
def dotChar (c : Char) : Bool := ¬ (c = '\n' ∨ c = '\r')

def rW : RE := .cls wordChar
def rWplus : RE := rplus rW
def rWS : RE := .star (.cls wsChar)
def rWS1 : RE := rplus (.cls wsChar)
def rdot : RE := .cls dotChar
def rdotStar : RE := .star rdot
def rupper : RE := .cls Char.isUpper
def rquote : RE := roneOf (String.mk [quoteS, quoteD, quoteB])

/-! File-extension helper (ignoreFolders.js, `getFileExtension`). -/

/-- Index of the last dot in a character list, if any. -/
def lastDotIdx (cs : List Char) : Option Nat :=
  (cs.foldl
    (fun (st : Nat × Option Nat) c =>
      (st.1 + 1, if c = '.' then some st.1 else st.2))
    (0, none)).2

/-- `getFileExtension(filePath)` from ignoreFolders.js: the substring of
    the basename from its last dot, or an empty string when the basename
    has no dot or starts with its only dot. -/
def getFileExtension (filePath : String) : String :=
  let fileName := (splitChar '/' (jsNorm filePath)).getLastD ""
  match lastDotIdx fileName.data with
  | some i => if i > 0 then String.mk (fileName.data.drop i) else ""
  | none => ""

/-! Path classifier (scan.service.js, `classifyByPath` and helpers). -/

/-- A `{type, role, category}` triple. -/
structure PathClass where
  ptype : String
  role : String
  category : String
deriving Repr, DecidableEq

/-- A directory-role triple as stored in `DIR_ROLES`. -/
structure RoleTriple where
  rtype : String
  rrole : String
  rcat : String
deriving Repr, DecidableEq

/-- A `DIR_ROLES` entry: a base triple and an optional backend override
    (only the `api` entry has one). -/
structure DirRole where
  base : RoleTriple
  backendOverride : Option RoleTriple
deriving Repr, DecidableEq

/-- The `DIR_ROLES` table of scan.service.js. -/
def DIR_ROLES (seg : String) : Option DirRole :=
  match seg with
  | "routes" => some ⟨⟨"route", "Route definition", "backend"⟩, none⟩
  | "route" => some ⟨⟨"route", "Route definition", "backend"⟩, none⟩
  | "api" => some ⟨⟨"api-client", "API client module", "frontend"⟩,
      some ⟨"route", "API route/handler", "backend"⟩⟩
  | "pages" => some ⟨⟨"page", "Page/view", "frontend"⟩, none⟩
  | "page" => some ⟨⟨"page", "Page/view", "frontend"⟩, none⟩
  | "app" => some ⟨⟨"page", "App router / page", "frontend"⟩, none⟩
  | "views" => some ⟨⟨"page", "View template", "frontend"⟩, none⟩
  | "components" => some ⟨⟨"component", "UI component", "frontend"⟩, none⟩
  | "component" => some ⟨⟨"component", "UI component", "frontend"⟩, none⟩
  | "ui" => some ⟨⟨"component", "UI component", "frontend"⟩, none⟩
  | "widgets" => some ⟨⟨"component", "UI widget", "frontend"⟩, none⟩
  | "controllers" => some ⟨⟨"controller", "Controller", "backend"⟩, none⟩
  | "controller" => some ⟨⟨"controller", "Controller", "backend"⟩, none⟩
  | "services" =>
    some ⟨⟨"service", "Service / business logic", "backend"⟩, none⟩
  | "service" =>
    some ⟨⟨"service", "Service / business logic", "backend"⟩, none⟩
  | "models" => some ⟨⟨"model", "Data model", "backend"⟩, none⟩
  | "model" => some ⟨⟨"model", "Data model", "backend"⟩, none⟩
  | "schemas" => some ⟨⟨"model", "Schema definition", "backend"⟩, none⟩
  | "schema" => some ⟨⟨"model", "Schema definition", "backend"⟩, none⟩
  | "middleware" => some ⟨⟨"middleware", "Middleware", "backend"⟩, none⟩
  | "middlewares" => some ⟨⟨"middleware", "Middleware", "backend"⟩, none⟩
  | "lib" => some ⟨⟨"utility", "Library / shared code", "shared"⟩, none⟩
  | "libs" => some ⟨⟨"utility", "Library / shared code", "shared"⟩, none⟩
  | "utils" => some ⟨⟨"utility", "Utility", "shared"⟩, none⟩
  | "util" => some ⟨⟨"utility", "Utility", "shared"⟩, none⟩
  | "helpers" => some ⟨⟨"utility", "Helper", "shared"⟩, none⟩
  | "hooks" => some ⟨⟨"utility", "React/hooks", "frontend"⟩, none⟩
  | "store" => some ⟨⟨"store", "State store", "frontend"⟩, none⟩
  | "stores" => some ⟨⟨"store", "State store", "frontend"⟩, none⟩
  | "providers" => some ⟨⟨"component", "Context/provider", "frontend"⟩, none⟩
  | "layouts" => some ⟨⟨"component", "Layout", "frontend"⟩, none⟩
  | "layout" => some ⟨⟨"component", "Layout", "frontend"⟩, none⟩
  | "types" => some ⟨⟨"types", "Type definitions", "shared"⟩, none⟩
  | "typings" => some ⟨⟨"types", "Type definitions", "shared"⟩, none⟩
  | "interfaces" => some ⟨⟨"types", "Type definitions", "shared"⟩, none⟩
  | "constants" => some ⟨⟨"utility", "Constants", "shared"⟩, none⟩
  | "config" => some ⟨⟨"config", "Configuration", "infrastructure"⟩, none⟩
  | "configs" => some ⟨⟨"config", "Configuration", "infrastructure"⟩, none⟩
  | "__tests__" => some ⟨⟨"test", "Test file", "test"⟩, none⟩
  | "__mocks__" => some ⟨⟨"test", "Mock", "test"⟩, none⟩
  | "__fixtures__" => some ⟨⟨"test", "Test fixture", "test"⟩, none⟩
  | "test" => some ⟨⟨"test", "Test file", "test"⟩, none⟩
  | "tests" => some ⟨⟨"test", "Test file", "test"⟩, none⟩
  | "spec" => some ⟨⟨"test", "Test spec", "test"⟩, none⟩
  | "specs" => some ⟨⟨"test", "Test spec", "test"⟩, none⟩
  | "e2e" => some ⟨⟨"test", "E2E test", "test"⟩, none⟩
  | "integration" => some ⟨⟨"test", "Integration test", "test"⟩, none⟩
  | "scripts" => some ⟨⟨"script", "Script", "infrastructure"⟩, none⟩
  | "script" => some ⟨⟨"script", "Script", "infrastructure"⟩, none⟩
  | "migrations" => some ⟨⟨"script", "Migration", "backend"⟩, none⟩
  | "seed" => some ⟨⟨"script", "Seed data", "backend"⟩, none⟩
  | "seeds" => some ⟨⟨"script", "Seed data", "backend"⟩, none⟩
  | "public" => some ⟨⟨"static", "Static asset (path)", "frontend"⟩, none⟩
  | "static" => some ⟨⟨"static", "Static asset", "frontend"⟩, none⟩
  | "assets" => some ⟨⟨"static", "Asset", "frontend"⟩, none⟩
  | "styles" => some ⟨⟨"style", "Styles", "frontend"⟩, none⟩
  | "theme" => some ⟨⟨"style", "Theme", "frontend"⟩, none⟩
  | "themes" => some ⟨⟨"style", "Theme", "frontend"⟩, none⟩
  | "docs" => some ⟨⟨"docs", "Documentation", "documentation"⟩, none⟩
  | "documentation" =>
    some ⟨⟨"docs", "Documentation", "documentation"⟩, none⟩
  | "workflows" => some ⟨⟨"config", "CI workflow", "infrastructure"⟩, none⟩
  | "actions" =>
    some ⟨⟨"config", "GitHub Actions", "infrastructure"⟩, none⟩
  | _ => none

/-- The `CONFIG_FILE_PATTERNS` list of scan.service.js (compared in
    lowercase, by equality or prefix). -/
def CONFIG_FILE_PATTERNS : List String :=
  ["package.json", "package-lock.json", "yarn.lock", "pnpm-lock.yaml",
   "pnpm-workspace.yaml", "bun.lockb", "lerna.json", "nx.json",
   "turbo.json", "tsconfig.json", "jsconfig.json", "tsconfig.base.json",
   "tsconfig.app.json", "tsconfig.node.json", "tsconfig.test.json",
   "tsconfig.build.json", "vercel.json", "netlify.toml", "netlify.json",
   "firebase.json", ".firebaserc", "vitest.config", "vite.config",
   "vitest.config.", "vite.config.", "next.config", "nuxt.config",
   "nuxt.config.", "svelte.config", "angular.json", "astro.config",
   "remix.config", "tailwind.config", "postcss.config", "postcss.config.",
   "jest.config", "jest.config.", "jest.setup", "vitest.setup",
   "karma.conf", "mocha.opts", "cypress.config", "playwright.config",
   "webpack.config", "webpack.config.", "rollup.config", "rspack.config",
   "esbuild.config", "parcel.config", "babel.config", "babel.config.",
   ".babelrc", ".babelrc.json", ".babelrc.js", "eslint.config",
   ".eslintrc", ".eslintrc.js", ".eslintrc.json", ".eslintrc.yml",
   ".prettierrc", ".prettierrc.js", ".prettierrc.json",
   ".prettierrc.yaml", "prettier.config", "stylelint.config",
   ".stylelintrc", "commitlint.config", ".commitlintrc",
   "lint-staged.config", "husky", ".nvmrc", ".node-version", ".npmrc",
   ".yarnrc", ".yarnrc.yml", "docker-compose", "docker-compose.",
   "Dockerfile", ".dockerignore", "Makefile", "justfile", "Procfile",
   ".env.example", ".env.sample", ".env.template", ".editorconfig",
   ".gitignore", ".gitattributes", "renovate.json", "dependabot.yml",
   ".releaserc", "release.config"]

/-- The regex `/\.config\.(js|ts|mjs|cjs)$/`. -/
def reConfigDot : RE :=
  rcat [rstr ".config.", ralts [rstr "js", rstr "ts", rstr "mjs",
    rstr "cjs"]]

/-- The regex `/\.(eslintrc|prettierrc|babelrc)(\.(js|json|yml|yaml))?$/`. -/
def reRcEnd : RE :=
  rcat [rchar '.',
    ralts [rstr "eslintrc", rstr "prettierrc", rstr "babelrc"],
    ropt (rcat [rchar '.',
      ralts [rstr "js", rstr "json", rstr "yml", rstr "yaml"]])]

/-- The anchored tool-config regex of `isConfigFileName`. -/
def reToolConfig : RE :=
  rcat [ralts [rstr "vite", rstr "vitest", rstr "next", rstr "nuxt",
      rstr "tailwind", rstr "postcss", rstr "jest", rstr "webpack",
      rstr "rollup", rstr "babel", rstr "prettier", rstr "eslint",
      rstr "stylelint", rstr "commitlint"],
    rstr ".config.",
    ralts [rstr "js", rstr "ts", rstr "mjs", rstr "cjs"]]

/-- The regex `/^docker-compose\.(yml|yaml|json)$/`. -/
def reDockerCompose : RE :=
  rcat [rstr "docker-compose.",
    ralts [rstr "yml", rstr "yaml", rstr "json"]]

/-- The anchored dot-file regex of `isConfigFileName`. -/
def reEnvTool : RE :=
  rcat [rchar '.',
    ralts [rstr "env.example", rstr "env.sample", rstr "env.template",
      rstr "nvmrc", rstr "node-version", rstr "npmrc", rstr "yarnrc"]]

/-- `isConfigFileName(fileName)` from scan.service.js. -/
def isConfigFileName (fileName : String) : Bool :=
  let lower := strLower fileName
  if CONFIG_FILE_PATTERNS.any (fun p => lower = p ∨ strStartsWith lower p)
  then true
  else if reTestEnd reConfigDot lower then true
  else if reTestEnd reRcEnd lower then true
  else if reTestWhole reToolConfig lower then true
  else if reTestWhole reDockerCompose lower then true
  else if reTestWhole reEnvTool lower then true
  else false

/-- The test-filename regexes of `isTestFileName`. -/
def reTestFile : RE :=
  rcat [rchar '.', ralts [rstr "test", rstr "spec"], rchar '.',
    ralts [rstr "js", rstr "jsx", rstr "ts", rstr "tsx", rstr "mjs",
      rstr "cjs"]]

/-- The second test-filename regex (`.vue` and `.svelte` tests). -/
def reTestFileSfc : RE :=
  rcat [rchar '.', ralts [rstr "test", rstr "spec"], rchar '.',
    ralts [rstr "vue", rstr "svelte"]]

/-- `isTestFileName(fileName)` from scan.service.js. -/
def isTestFileName (fileName : String) : Bool :=
  let lower := strLower fileName
  reTestEnd reTestFile lower || reTestEnd reTestFileSfc lower

/-- `isDeclarationFile(fileName)`: the regex `/\.d\.(ts|tsx)$/`. -/
def isDeclarationFile (fileName : String) : Bool :=
  reTestEnd (rcat [rstr ".d.", ralts [rstr "ts", rstr "tsx"]]) fileName

/-- `isFrontendRoot(normalizedPath)` from scan.service.js: a known
    frontend root directory, or a `src/` root without a backend root. -/
def isFrontendRoot (np : String) : Bool :=
  if ["client/", "frontend/", "web/", "app/", "ui/"].any
      (fun p => strStartsWith (strLower np) p) then true
  else if strStartsWith np "src/" ∧
      ¬ (["server/", "backend/", "api-server/"].any
        (fun p => strStartsWith (strLower np) p)) then true
  else false

/-- `isBackendRoot(normalizedPath)` from scan.service.js. -/
def isBackendRoot (np : String) : Bool :=
  ["server/", "backend/", "api-server/"].any
    (fun p => strStartsWith (strLower np) p)

/-- The regex `/^tsconfig\.?.*\.json$/` (on the lowercase filename). -/
def reTsconfig : RE :=
  rcat [rstr "tsconfig", ropt (rchar '.'), rdotStar, rstr ".json"]

/-- The regex `/^(vercel|netlify|firebase)\.json$/`. -/
def reHosting : RE :=
  rcat [ralts [rstr "vercel", rstr "netlify", rstr "firebase"],
    rstr ".json"]

/-- The start-anchored build-config regex of step 1 of `classifyByPath`. -/
def reBuildCfg : RE :=
  rcat [ralts [rstr "vite", rstr "vitest", rstr "next", rstr "nuxt",
      rstr "svelte", rstr "astro", rstr "remix", rstr "tailwind",
      rstr "postcss", rstr "webpack", rstr "rollup", rstr "babel",
      rstr "eslint", rstr "prettier", rstr "stylelint",
      rstr "commitlint"],
    rstr ".config."]

/-- The regex `/\.(eslintrc|prettierrc|babelrc)/` (unanchored). -/
def reRcAny : RE :=
  rcat [rchar '.',
    ralts [rstr "eslintrc", rstr "prettierrc", rstr "babelrc"]]

/-- The regex `/^jest\.(config|setup)/`. -/
def reJest : RE := rcat [rstr "jest.", ralts [rstr "config", rstr "setup"]]

/-- The regex `/^vitest\.(config|setup)/`. -/
def reVitest : RE :=
  rcat [rstr "vitest.", ralts [rstr "config", rstr "setup"]]

/-- The regex `/^(karma|cypress|playwright)\.(config|conf)/`. -/
def reTestRunner : RE :=
  rcat [ralts [rstr "karma", rstr "cypress", rstr "playwright"],
    rchar '.', ralts [rstr "config", rstr "conf"]]

/-- The regex `/^docker-compose\./`. -/
def reDockerDot : RE := rstr "docker-compose."

/-- The anchored env-file regex of step 1 of `classifyByPath`. -/
def reEnvFiles : RE :=
  rcat [rchar '.',
    ralts [rstr "env.example", rstr "env.sample", rstr "env.template",
      rstr "gitignore", rstr "gitattributes", rstr "editorconfig",
      rstr "npmrc", rstr "yarnrc", rstr "nvmrc", rstr "node-version"]]

/-- Step 1 of `classifyByPath`: the inner chain taken once
    `isConfigFileName` holds, on the lowercase filename. -/
def classifyConfigStep (fnLower : String) : PathClass :=
  if fnLower = "package.json" then
    ⟨"manifest", "Package manifest", "infrastructure"⟩
  else if ["package-lock.json", "yarn.lock", "pnpm-lock.yaml",
      "bun.lockb"].contains fnLower then
    ⟨"manifest", "Lockfile", "infrastructure"⟩
  else if fnLower = "pnpm-workspace.yaml" ∨ fnLower = "lerna.json" ∨
      fnLower = "nx.json" ∨ fnLower = "turbo.json" then
    ⟨"manifest", "Monorepo / workspace config", "infrastructure"⟩
  else if reTestWhole reTsconfig fnLower ∨ fnLower = "jsconfig.json" then
    ⟨"config", "TypeScript/JS project config", "infrastructure"⟩
  else if reTestWhole reHosting fnLower ∨ fnLower = "netlify.toml" then
    ⟨"config", "Hosting/deploy config", "infrastructure"⟩
  else if reTestStart reBuildCfg fnLower ∨ reTest reRcAny fnLower then
    ⟨"config", "Build/lint config", "infrastructure"⟩
  else if reTestStart reJest fnLower ∨ reTestStart reVitest fnLower ∨
      reTestStart reTestRunner fnLower then
    ⟨"config", "Test runner config", "infrastructure"⟩
  else if reTestStart reDockerDot fnLower ∨ fnLower = "dockerfile" ∨
      fnLower = ".dockerignore" then
    ⟨"config", "Docker config", "infrastructure"⟩
  else if fnLower = "makefile" ∨ fnLower = "justfile" ∨
      fnLower = "procfile" then
    ⟨"script", "Build/run script", "infrastructure"⟩
  else if reTestWhole reEnvFiles fnLower then
    ⟨"config", "Environment/tool config", "infrastructure"⟩
  else ⟨"config", "Configuration file", "infrastructure"⟩

/-- Step 2 of `classifyByPath`: a path segment naming a test directory. -/
def testDirRole (part : String) : Option PathClass :=
  match DIR_ROLES (strLower part) with
  | some dr =>
    if dr.base.rtype = "test" then some ⟨"test", dr.base.rrole, "test"⟩
    else none
  | none => none

/-- The `ENTRY_POINT_NAMES` set of step 12 of `classifyByPath`. -/
def ENTRY_POINT_NAMES : List String :=
  ["server.js", "server.ts", "server.mjs", "app.js", "app.ts", "app.mjs",
   "main.js", "main.ts", "main.mjs", "main.tsx", "main.jsx", "index.js",
   "index.ts", "index.mjs", "index.tsx", "index.jsx"]

/-- Step 12 of `classifyByPath`: entry-point detection.  Note that the
    block falls through (returns nothing) when the filename is an entry
    name at depth at most three but neither the backend condition nor
    the frontend-root condition holds. -/
def entryPointStep (np fnLower : String) (depth : Nat) :
    Option PathClass :=
  if ENTRY_POINT_NAMES.contains fnLower then
    if depth ≤ 3 then
      if isBackendRoot np ∨ strStartsWith fnLower "server." ∨
          strStartsWith fnLower "app." then
        some ⟨"entry-point", "Server entry point", "backend"⟩
      else if isFrontendRoot np then
        some ⟨"entry-point", "App entry point", "frontend"⟩
      else none
    else none
  else none

/-- The code extensions accepted by the directory-role step. -/
def CODE_EXTS : List String :=
  [".js", ".jsx", ".ts", ".tsx", ".mjs", ".cjs", ".vue", ".svelte"]

/-- Step 13 of `classifyByPath` for one path segment: look the segment
    up in `DIR_ROLES`, apply the `api` backend override and the
    shared-category override, and accept subject to extension
    compatibility.  The walk continues to the next segment (returns
    none) when the extension is not compatible. -/
def dirRoleStep (inFrontend inBackend : Bool) (ext : String)
    (part : String) : Option PathClass :=
  match DIR_ROLES (strLower part) with
  | none => none
  | some dr =>
    if dr.base.rtype = "test" then none
    else
      let t0 :=
        match dr.backendOverride with
        | some ov =>
          if inBackend then ov
          else if ¬ inFrontend ∧ ¬ inBackend then ov
          else dr.base
        | none => dr.base
      let c1 := if t0.rcat = "shared" ∧ inBackend then "backend" else t0.rcat
      let c2 := if c1 = "shared" ∧ inFrontend then "frontend" else c1
      if CODE_EXTS.contains ext then some ⟨t0.rtype, t0.rrole, c2⟩
      else if t0.rtype = "style" ∧
          [".css", ".scss", ".sass", ".less"].contains ext then
        some ⟨t0.rtype, t0.rrole, c2⟩
      else if t0.rtype = "static" ∧ ¬ [".js", ".ts"].contains ext then
        some ⟨t0.rtype, t0.rrole, c2⟩
      else none

/-- Steps 14 and 15 of `classifyByPath`: extension fallbacks. -/
def extFallback (inFrontend inBackend : Bool) (ext : String) : PathClass :=
  if ext = ".vue" ∨ ext = ".svelte" then
    ⟨"component", "SFC component", "frontend"⟩
  else if ext = ".tsx" ∨ ext = ".jsx" then
    ⟨"component", "JSX/TSX module",
      if inBackend then "backend" else "frontend"⟩
  else if ext = ".ts" ∨ ext = ".js" ∨ ext = ".mjs" ∨ ext = ".cjs" then
    ⟨"utility", "Script/module",
      if inBackend then "backend"
      else if inFrontend then "frontend" else "shared"⟩
  else if ext = ".txt" then ⟨"docs", "Text file", "documentation"⟩
  else if ext = ".xml" then ⟨"markup", "XML file", "other"⟩
  else ⟨"utility", "Source file", "shared"⟩

/-- `classifyByPath(filePath)` from scan.service.js: the path-based
    classifier (Layer 1), a strict precedence chain. -/
def classifyByPath (filePath : String) : PathClass :=
  let normalizedPath := jsNorm filePath
  let normalizedLower := strLower normalizedPath
  let parts := splitChar '/' normalizedPath
  let fileName := parts.getLastD ""
  let fileNameLower := strLower fileName
  let ext := getFileExtension fileName
  if isConfigFileName fileName then classifyConfigStep fileNameLower
  else if isTestFileName fileName then
    ⟨"test", "Test/spec file", "test"⟩
  else
    match parts.findSome? testDirRole with
    | some pc => pc
    | none =>
      if ext = ".html" ∨ ext = ".htm" then
        ⟨"markup", "HTML file", "frontend"⟩
      else if ext = ".css" ∨ ext = ".scss" ∨ ext = ".sass" ∨
          ext = ".less" then
        ⟨"style", "Stylesheet", "frontend"⟩
      else if ext = ".json" then
        ⟨"data", "JSON data", "infrastructure"⟩
      else if ext = ".yml" ∨ ext = ".yaml" ∨ ext = ".toml" then
        let inWorkflows := strContains normalizedLower "/.github/" ∧
          (strContains normalizedLower "workflows" ∨
           strContains normalizedLower "actions")
        ⟨"config", if inWorkflows then "CI workflow"
          else "Configuration file", "infrastructure"⟩
      else if ext = ".md" ∨ ext = ".mdx" then
        ⟨"docs", "Documentation", "documentation"⟩
      else if isDeclarationFile fileName then
        ⟨"types", "Type declarations", "shared"⟩
      else if ext = ".graphql" ∨ ext = ".gql" then
        ⟨"data", "GraphQL schema/query", "backend"⟩
      else if ext = ".prisma" then
        ⟨"model", "Prisma schema", "backend"⟩
      else if ext = ".sql" then
        ⟨"script", "SQL script", "backend"⟩
      else
        match entryPointStep normalizedPath fileNameLower parts.length with
        | some pc => pc
        | none =>
          let inFrontend := isFrontendRoot normalizedPath
          let inBackend := isBackendRoot normalizedPath
          match parts.reverse.findSome?
              (dirRoleStep inFrontend inBackend ext) with
          | some pc => pc
          | none => extFallback inFrontend inBackend ext

/-! Content scorer (scan.service.js, `classifyByContent`). -/

/-- Per-type score accumulator of `classifyByContent`. -/
structure ContentScores where
  route : Nat
  controller : Nat
  service : Nat
  model : Nat
  component : Nat
  page : Nat
  middleware : Nat
  config : Nat
  types : Nat
  utility : Nat
deriving Repr, DecidableEq

/-- The HTTP-method alternation `(get|post|put|delete|patch|all)`. -/
def rHttpAll : RE :=
  ralts [rstr "get", rstr "post", rstr "put", rstr "delete", rstr "patch",
    rstr "all"]

/-- The HTTP-method alternation `(get|post|put|delete|patch)`. -/
def rHttp5 : RE :=
  ralts [rstr "get", rstr "post", rstr "put", rstr "delete", rstr "patch"]

/-- The quote class of `/['"]/` (no backtick). -/
def rquote2 : RE := roneOf (String.mk [quoteS, quoteD])

/-- The weighted regex scores of `classifyByContent`, one addend per
    source line, in source order. -/
def contentScores (content : String) : ContentScores :=
  let routeScore :=
    (if reTest (rcat [rchar '.', rHttpAll, rWS, rchar '(']) content
      then 10 else 0) +
    (if reTest (rcat [rstr "router.", rHttpAll]) content then 15 else 0) +
    (if reTest (rcat [rstr "app.", rHttpAll]) content then 12 else 0) +
    (if reTest (ralts [rstr "Router()", rstr "createRouter",
        rstr "defineRoute"]) content then 8 else 0) +
    (if reTest (rcat [rstr "export", rWS1,
        ralts [rstr "const", rstr "default"], rWS1, rHttp5, rWS1]) content
      then 12 else 0)
  let controllerScore :=
    (if reTest (rcat [rstr "(req,", rWS, rstr "res"]) content ||
        reTest (rcat [rstr "(request,", rWS, rstr "response"]) content
      then 8 else 0) +
    (if reTest (rcat [rstr "res.", ralts [rstr "json", rstr "send",
        rstr "status", rstr "render", rstr "redirect"]]) content
      then 5 else 0) +
    (if reTest (rcat [rstr "req.", ralts [rstr "body", rstr "params",
        rstr "query", rstr "headers", rstr "cookies"]]) content
      then 3 else 0) +
    (if reTest (rcat [rstr "async", rWS1, rWplus, rWS, rchar '(', rWS,
        rstr "req", rWS, rchar ',', rWS, rstr "res"]) content
      then 10 else 0)
  let serviceScore :=
    (if reTest (rcat [rstr "class", rWS1, rWplus, rstr "Service"]) content
      then 15 else 0) +
    (if reTest (rcat [rstr "@Injectable", rWS, rchar '(']) content
      then 8 else 0) +
    (if reTest (rcat [rstr "async", rWS1, rWplus, rWS, rchar '(',
          RE.star (.cls (fun c => c ≠ ')')), rchar ')', rWS,
          rchar braceL]) content &&
        ¬ reTest (ralts [rstr "req", rstr "res"]) content
      then 5 else 0) +
    (if reTest (ralts [rcat [rstr ".find",
        ropt (ralts [rstr "Many", rstr "First", rstr "Unique"]),
        rchar '('], rstr ".create(", rstr ".update(", rstr ".delete(",
        rstr ".upsert("]) content then 3 else 0)
  let modelScore :=
    (if reTest (rcat [rstr "new", rWS1, ropt (rstr "mongoose."),
        rstr "Schema", rWS, rchar '(']) content then 20 else 0) +
    (if reTest (rcat [rstr "mongoose.model", rWS, rchar '(']) content
      then 15 else 0) +
    (if reTest (rstr "sequelize.define") content then 15 else 0) +
    (if reTest (ralts [rstr "@Entity", rstr "@Table", rstr "@Column",
        rstr "@PrimaryColumn"]) content then 15 else 0) +
    (if reTest (rcat [rstr "model", rWS1, rWplus, rWS, rchar braceL])
          content &&
        reTest (ralts [rstr "@@map", rstr "@@id"]) content
      then 12 else 0) +
    (if reTest (ralts [rstr "defineModel", rstr "defineTable"]) content
      then 8 else 0)
  let componentScore :=
    (if reTest (rcat [rchar '<', rupper, RE.star (.cls Char.isAlphanum),
        .cls (fun c => wsChar c ∨ c = '/' ∨ c = '>')]) content
      then 5 else 0) +
    (if reTest (ralts [rstr "useState", rstr "useEffect",
        rstr "useContext", rstr "useReducer", rstr "useMemo",
        rstr "useCallback", rstr "useRef"]) content then 8 else 0) +
    (if reTest (rcat [rstr "export", rWS1,
        ropt (rcat [rstr "default", rWS1]), rstr "function", rWS1,
        rupper]) content then 5 else 0) +
    (if reTest (rcat [rstr "return", rWS, rchar '(', rWS, rchar '<'])
        content then 10 else 0) +
    (if reTest (ralts [rcat [rstr "import", rWS1, rstr "React"],
        rcat [rstr "from", rWS1, rquote2, rstr "react", rquote2]]) content
      then 3 else 0) +
    (if reTest (ralts [rstr "<template>", rstr "<script>",
        rstr "<style>"]) content then 10 else 0) +
    (if reTest (ralts [rstr "svelte:element", rstr "on:click",
        rstr "bind:"]) content then 8 else 0)
  let pageScore :=
    (if reTest (ralts [rstr "getServerSideProps", rstr "getStaticProps",
        rstr "getStaticPaths"]) content then 15 else 0) +
    (if reTest (ralts [rstr "useRouter", rstr "useNavigate",
        rstr "useParams", rstr "useSearchParams", rstr "usePathname"])
        content then 5 else 0) +
    (if reTest (rcat [rstr "export", rWS1,
        ropt (rcat [rstr "const", rWS1]),
        ralts [rstr "metadata", rstr "generateMetadata"]]) content
      then 8 else 0) +
    (if reTest (ralts [rstr "loader",
          rcat [rstr "action", rWS, roneOf ":("]]) content &&
        reTest (ralts [rstr "Form", rstr "useLoaderData"]) content
      then 6 else 0)
  let middlewareScore :=
    (if reTest (rcat [rstr "(req,", rWS, rstr "res,", rWS, rstr "next)"])
        content then 15 else 0) +
    (if reTest (ralts [rstr "next()", rcat [rstr "next", rWS,
        rchar '(']]) content then 5 else 0) +
    (if reTest (rcat [rstr "export", rWS1, rstr "const", rWS1,
        rstr "config", rWS, rchar '=', rWS, rchar braceL, rdotStar,
        rstr "matcher"]) content then 10 else 0) +
    (if reTest (rcat [rstr "middleware", rWS, rchar '(']) content &&
        reTest (ralts [rstr "NextResponse", rstr "redirect"]) content
      then 10 else 0)
  let configScore :=
    (if reTest (ralts [rcat [rstr "defineConfig", rWS, rchar '('],
        rcat [rstr "defineProject", rWS, rchar '(']]) content
      then 12 else 0) +
    (if reTest (rcat [rstr "module.exports", rWS, rchar '=', rWS,
        rchar braceL]) content then 5 else 0) +
    (if reTest (rcat [rstr "export", rWS1, rstr "default", rWS1,
          rchar braceL]) content &&
        strLen content < 2500
      then 4 else 0) +
    (if reTest (ralts [rcat [rstr "plugin", ropt (rchar 's'), rWS,
          rchar ':', rWS, rchar '['],
          rcat [rstr "resolve", rWS, rchar ':', rWS, rchar braceL]])
          content &&
        strLen content < 3000
      then 5 else 0)
  let typesScore :=
    (if reTest (rcat [rstr "declare", rWS1, ralts [rstr "module",
        rstr "namespace", rstr "function", rstr "const", rstr "class",
        rstr "interface", rstr "type"]]) content then 15 else 0) +
    (if reTest (rcat [rstr "interface", rWS1, rWplus, rWS, rchar braceL])
        content then 5 else 0) +
    (if reTest (rcat [rstr "type", rWS1, rWplus, rWS, rchar '=', rWS])
          content &&
        ¬ reTest (ralts [rstr "useState", rstr "useReducer"]) content
      then 3 else 0)
  { route := routeScore, controller := controllerScore,
    service := serviceScore, model := modelScore,
    component := componentScore, page := pageScore,
    middleware := middlewareScore, config := configScore,
    types := typesScore, utility := 0 }

/-- The entries of the score object, in JS insertion order. -/
def scoreEntries (s : ContentScores) : List (String × Nat) :=
  [("route", s.route), ("controller", s.controller),
   ("service", s.service), ("model", s.model),
   ("component", s.component), ("page", s.page),
   ("middleware", s.middleware), ("config", s.config),
   ("types", s.types), ("utility", s.utility)]

/-- One step of the highest-score loop of `classifyByContent`
    (strict comparison, so the first maximal entry wins). -/
def maxStep (st : Nat × Option String) (e : String × Nat) :
    Nat × Option String :=
  if e.2 > st.1 then (e.2, some e.1) else st

/-- The highest-score loop of `classifyByContent`. -/
def maxEntry (es : List (String × Nat)) : Nat × Option String :=
  es.foldl maxStep (0, none)

/-- The `roleMap` of `classifyByContent`. -/
def CONTENT_ROLE_MAP (t : String) : String :=
  match t with
  | "route" => "API route handler"
  | "controller" => "Request/response controller"
  | "service" => "Business logic service"
  | "model" => "Database model/schema"
  | "component" => "UI component"
  | "page" => "Page component"
  | "middleware" => "Middleware function"
  | "config" => "Configuration"
  | "types" => "Type definitions"
  | "utility" => "Utility function"
  | _ => "Source file"

/-- A `{type, role, confidence}` result of the content scorer. -/
structure ContentClass where
  ctype : String
  role : String
  confidence : JsRat
deriving Repr, DecidableEq

/-- `classifyByContent(content, filePath)` from scan.service.js (the
    path argument is unused by the source).  Returns null for empty
    content and when the best score is below 8; the confidence is
    `min(score/22, 1)`. -/
def classifyByContent (content : String) : Option ContentClass :=
  if ¬ jsTruthy content then none
  else
    let scores := contentScores content
    let m := maxEntry (scoreEntries scores)
    if m.1 ≥ 8 then
      some ⟨m.2.getD "", CONTENT_ROLE_MAP (m.2.getD ""),
        jsMin (jsDiv m.1 22) (jsOfNat 1)⟩
    else none

/-- The maximum per-type score of the content scorer, as a plain
    maximum over the ten scores. -/
def maxContentScore (content : String) : Nat :=
  let s := contentScores content
  [s.route, s.controller, s.service, s.model, s.component, s.page,
   s.middleware, s.config, s.types, s.utility].foldl Nat.max 0

/-- The classification merge of the scan orchestrator (scanProject,
    first pass): the content result overrides the path-based type and
    role only when its confidence is at least 0.5. -/
def mergeClassification (pathC : PathClass)
    (contentC : Option ContentClass) : String × String :=
  match contentC with
  | some c =>
    if jsLe (jsDiv 1 2) c.confidence then (c.ctype, c.role)
    else (pathC.ptype, pathC.role)
  | none => (pathC.ptype, pathC.role)

/-- The `parts` local of `classifyByPath`: the normalized path split on
    slashes. -/
def pathParts (filePath : String) : List String :=
  splitChar '/' (jsNorm filePath)

/-- The `fileName` local of `classifyByPath`: the last path segment. -/
def pathFileName (filePath : String) : String :=
  (pathParts filePath).getLastD ""

/-! Association lists with the semantics of JS object/Map keys:
    insertion order, update-in-place, delete. -/

/-- JS object/Map lookup. -/
def aget {α : Type} : List (String × α) → String → Option α
  | [], _ => none
  | (k2, v) :: tl, k => if k2 = k then some v else aget tl k

/-- JS object/Map write: update in place, else append. -/
def aset {α : Type} : List (String × α) → String → α → List (String × α)
  | [], k, v => [(k, v)]
  | (k2, v2) :: tl, k, v =>
    if k2 = k then (k, v) :: tl else (k2, v2) :: aset tl k v

/-- JS `delete obj[k]`. -/
def adel {α : Type} : List (String × α) → String → List (String × α)
  | [], _ => []
  | (k2, v) :: tl, k =>
    if k2 = k then adel tl k else (k2, v) :: adel tl k

/-- JS `Set.add`: append when not already present. -/
def saddU (l : List String) (x : String) : List String :=
  if l.contains x then l else l ++ [x]

/-! Relationship graph builder (relationshipBuilder.js).  The JS field
    names `from`/`to` are Lean keywords-adjacent, so the edge record
    uses `src`/`dst`/`rtype` for `from`/`to`/`type`. -/

/-- A directed relationship edge `{from, to, type}`. -/
structure Relationship where
  src : String
  dst : String
  rtype : String
deriving Repr, DecidableEq

/-- A route entry `{method, path}` extracted from file content. -/
structure RouteEntry where
  method : String
  rpath : String
deriving Repr, DecidableEq

/-- The input shape of the relationship builder: `{path, type,
    imports.files}`. -/
structure GraphFile where
  path : String
  ftype : String
  importsFiles : List String
deriving Repr, DecidableEq

/-- The `LAYER_TRANSITIONS` table of relationshipBuilder.js. -/
def LAYER_TRANSITIONS (t : String) : Option (List String) :=
  match t with
  | "route" => some ["controller", "service", "middleware"]
  | "controller" => some ["service", "model", "utility"]
  | "service" => some ["model", "utility"]
  | "middleware" => some ["service", "utility"]
  | "page" => some ["component", "hook", "service", "utility"]
  | "component" => some ["component", "hook", "utility"]
  | _ => none

/-- The `fileTypeMap` of `buildRelationshipGraph`. -/
def typeMapOf (files : List GraphFile) : List (String × String) :=
  files.foldl (fun m f => aset m (jsNorm f.path) f.ftype) []

/-- Processing of one file by `buildRelationshipGraph`: all `imports`
    edges, then the guarded, deduplicated `uses` edges.  (The JS
    truthiness test on `targetType` is omitted: no file type is the
    empty string, and `allowed` never contains it.) -/
def relStep (fileTypeMap : List (String × String))
    (rels : List Relationship) (f : GraphFile) : List Relationship :=
  let fromPath := jsNorm f.path
  let rels1 := rels ++
    f.importsFiles.map (fun ip => ⟨fromPath, jsNorm ip, "imports"⟩)
  match LAYER_TRANSITIONS f.ftype with
  | none => rels1
  | some allowed =>
    if allowed.length > 0 then
      f.importsFiles.foldl (fun acc ip =>
        let ni := jsNorm ip
        match aget fileTypeMap ni with
        | some targetType =>
          if allowed.contains targetType then
            if acc.any (fun r =>
                r.src = fromPath ∧ r.dst = ni ∧ r.rtype = "uses") then acc
            else acc ++ [⟨fromPath, ni, "uses"⟩]
          else acc
        | none => acc) rels1
    else rels1

/-- `buildRelationshipGraph(files)` from relationshipBuilder.js. -/
def buildRelationshipGraph (files : List GraphFile) : List Relationship :=
  files.foldl (relStep (typeMapOf files)) []

/-! Feature detector (featureDetector.js). -/

/-- The input shape of the feature detector, as assembled by the scan
    orchestrator: `{path, type, category, routes, imports.files}`. -/
structure DetectionFile where
  path : String
  ftype : String
  category : String
  routes : List RouteEntry
  importsFiles : List String
deriving Repr, DecidableEq

/-- A hub record `{path, type, routes, imports}`. -/
structure Hub where
  path : String
  htype : String
  routes : List RouteEntry
  imports : List String
deriving Repr, DecidableEq

/-- The regex `/\/app\/(?:.*\/)?page\.(tsx|jsx)$/`. -/
def reAppPage : RE :=
  rcat [rstr "/app/", ropt (rcat [rdotStar, rchar '/']), rstr "page.",
    ralts [rstr "tsx", rstr "jsx"]]

/-- The regex `/\/app\/(?:.*\/)?route\.(ts|js)$/`. -/
def reAppRoute : RE :=
  rcat [rstr "/app/", ropt (rcat [rdotStar, rchar '/']), rstr "route.",
    ralts [rstr "ts", rstr "js"]]

/-- Step 1 of the feature detector for one file: hub detection by path
    patterns, with the hub type picked by the controller, page, api,
    route precedence. -/
def hubOf (f : DetectionFile) : Option Hub :=
  let path := jsNorm f.path
  let isController := strContains path "/controllers/"
  let isPagesPage := strContains path "/pages/" ∧
    (strEndsWith path ".tsx" ∨ strEndsWith path ".jsx") ∧
    ¬ (strContains path "/_app." ∨ strContains path "/_document." ∨
       strContains path "/_error.")
  let isAppPage := reTestEnd reAppPage path
  let isPage := isPagesPage ∨ isAppPage
  let isAppRoute := reTestEnd reAppRoute path
  let isAPIModule := strContains path "/api/" ∧
    (strContains path "client/" ∨ strContains path "frontend/" ∨
     strContains path "src/api/" ∨ strContains path "/app/api/") ∧
    ¬ (strEndsWith path "index.ts" ∨ strEndsWith path "index.js" ∨
       strEndsWith path "index.tsx" ∨ strEndsWith path "index.jsx") ∧
    ¬ isAppRoute
  let isRouteHandler := (f.ftype = "route" ∧ f.routes.length > 0) ∨
    strContains path "/routes/" ∨ isAppRoute
  if isController ∨ isPage ∨ isAPIModule ∨ isRouteHandler then
    some ⟨path,
      if isController then "controller"
      else if isPage then "page"
      else if isAPIModule then "api"
      else "route",
      f.routes, f.importsFiles⟩
  else none

/-- `identifyHubs(files)` from featureDetector.js. -/
def identifyHubs (files : List DetectionFile) : List Hub :=
  files.filterMap hubOf

/-! Capture scanners for the six `extractFeatureName` patterns.  Each
    implements the leftmost-match and backtracking behaviour of the JS
    regex it stands for; all six patterns carry the `i` flag, so
    literal comparisons are case-insensitive. -/

/-- Case-insensitive literal prefix: the rest on success. -/
def ciPrefix? : List Char → List Char → Option (List Char)
  | [], cs => some cs
  | _, [] => none
  | p :: ps, c :: cs =>
    if c.toLower = p.toLower then ciPrefix? ps cs else none

/-- Scan every start position for the first hit of a matcher. -/
def scanFor {α : Type} (tryHere : List Char → Option α) :
    List Char → Option α
  | [] => none
  | l@(_ :: tl) =>
    match tryHere l with
    | some r => some r
    | none => scanFor tryHere tl

/-- Lazy `(\w+?)` followed by a literal: the shortest non-empty word
    run after which the literal matches. -/
def lazyWordThen (lit : String) (acc : List Char) :
    List Char → Option (List Char)
  | [] => none
  | c :: cs =>
    if wordChar c then
      if (ciPrefix? lit.data cs).isSome then some (c :: acc).reverse
      else lazyWordThen lit (c :: acc) cs
    else none

/-- A literal dot followed by one of the given extensions. -/
def extAfterDot (exts : List String) (cs : List Char) : Bool :=
  match cs with
  | c :: r => c = '.' ∧ exts.any (fun e => (ciPrefix? e.data r).isSome)
  | [] => false

/-- The tail of the routes pattern after the lazy word: the greedy
    optional `(?:Routes|Route)?` then `\.(js|ts)`. -/
def routesTail (cs : List Char) : Bool :=
  (match ciPrefix? "Routes".data cs with
   | some r => extAfterDot ["js", "ts"] r
   | none => false) ||
  (match ciPrefix? "Route".data cs with
   | some r => extAfterDot ["js", "ts"] r
   | none => false) ||
  extAfterDot ["js", "ts"] cs

/-- Lazy `(\w+?)` of the routes pattern, checking `routesTail` after
    each extension of the word run. -/
def lazyWordRoutes (acc : List Char) : List Char → Option (List Char)
  | [] => none
  | c :: cs =>
    if wordChar c then
      if routesTail cs then some (c :: acc).reverse
      else lazyWordRoutes (c :: acc) cs
    else none

/-- The suffixes starting right after each slash, in order. -/
def afterSlashSuffixes : List Char → List (List Char)
  | [] => []
  | c :: cs =>
    if c = '/' then cs :: afterSlashSuffixes cs
    else afterSlashSuffixes cs

/-- Does one of the special filenames followed by a dot and one of the
    extensions match here? -/
def trySpecialAt (specials exts : List String) (cs : List Char) : Bool :=
  specials.any (fun sp =>
    match ciPrefix? sp.data cs with
    | some r => extAfterDot exts r
    | none => false)

/-- The `([^\/]+?)[\/]special\.ext` part of the App-Router and
    pages-index patterns: the slash-free segment here, accepted when a
    special filename follows its slash. -/
def segSlashSpecial (specials exts : List String) (cs : List Char) :
    Option (List Char) :=
  let seg := cs.takeWhile (fun c => c ≠ '/')
  if seg.isEmpty then none
  else
    match cs.drop seg.length with
    | '/' :: rest =>
      if trySpecialAt specials exts rest then some seg else none
    | _ => none

/-- The `(\w+?)\.(ext..)` part of the pages and api patterns: the word
    run here, accepted when a dot and extension follow. -/
def wordDotExt (exts : List String) (cs : List Char) :
    Option (List Char) :=
  let seg := cs.takeWhile wordChar
  if seg.isEmpty then none
  else
    match cs.drop seg.length with
    | c :: r =>
      if c = '.' ∧ exts.any (fun e => (ciPrefix? e.data r).isSome) then
        some seg
      else none
    | [] => none

/-- The candidate capture starts after the greedy optional directory
    prefix `(?:.*[\/])?`: latest slash first (greedy), the empty
    prefix last. -/
def greedyPrefixCands (rest : List Char) : List (List Char) :=
  (afterSlashSuffixes rest).reverse ++ [rest]

/-- The transform of the App-Router pattern: strip one leading opening
    and one trailing closing parenthesis (route groups). -/
def stripParens (s : String) : String :=
  let s1 := if strStartsWith s "(" then strDrop s 1 else s
  if strEndsWith s1 ")" then strDropRight s1 1 else s1

/-- `extractFeatureName(path)` from featureDetector.js: the ordered
    list of six naming conventions; the first matching pattern wins and
    its capture is lowercased (route groups also lose their
    parentheses). -/
def extractFeatureName (path : String) : Option String :=
  let cs := path.data
  match scanFor (fun l =>
      match ciPrefix? "controllers/".data l with
      | some rest => lazyWordThen "Controller." [] rest
      | none => none) cs with
  | some w => some (strLower (String.mk w))
  | none =>
  match scanFor (fun l =>
      match ciPrefix? "app/".data l with
      | some rest =>
        (greedyPrefixCands rest).findSome?
          (segSlashSpecial
            ["page", "route", "layout", "loading", "error", "not-found"]
            ["tsx", "jsx", "ts", "js"])
      | none => none) cs with
  | some w => some (strLower (stripParens (String.mk w)))
  | none =>
  match scanFor (fun l =>
      match ciPrefix? "pages/".data l with
      | some rest =>
        (greedyPrefixCands rest).findSome?
          (segSlashSpecial ["index"] ["tsx", "jsx"])
      | none => none) cs with
  | some w => some (strLower (String.mk w))
  | none =>
  match scanFor (fun l =>
      match ciPrefix? "pages/".data l with
      | some rest =>
        (greedyPrefixCands rest).findSome?
          (wordDotExt ["tsx", "jsx"])
      | none => none) cs with
  | some w => some (strLower (String.mk w))
  | none =>
  match scanFor (fun l =>
      match ciPrefix? "api/".data l with
      | some rest => wordDotExt ["ts", "js", "tsx", "jsx"] rest
      | none => none) cs with
  | some w => some (strLower (String.mk w))
  | none =>
  match scanFor (fun l =>
      match ciPrefix? "routes/".data l with
      | some rest => lazyWordRoutes [] rest
      | none => none) cs with
  | some w => some (strLower (String.mk w))
  | none => none

/-- `detectFeatureRelationships(featureName)`: the canonicalization
    table mapping synonyms onto a canonical feature. -/
def detectFeatureRelationships (featureName : String) : String :=
  match featureName with
  | "login" => "auth"
  | "register" => "auth"
  | "signup" => "auth"
  | "signin" => "auth"
  | "verify" => "auth"
  | "forgotpassword" => "auth"
  | "verifyforgotpassword" => "auth"
  | "resetpassword" => "auth"
  | "home" => "dashboard"
  | "overview" => "dashboard"
  | "insight" => "insights"
  | "analytics" => "insights"
  | "stats" => "insights"
  | _ => featureName

/-- The irregular-plural table of `normalizePluralSingular`. -/
def IRREGULAR_PLURALS (n : String) : Option String :=
  match n with
  | "people" => some "person"
  | "children" => some "child"
  | "mice" => some "mouse"
  | "men" => some "man"
  | "women" => some "woman"
  | "data" => some "data"
  | "media" => some "media"
  | _ => none

/-- `normalizePluralSingular(name)` from featureDetector.js. -/
def normalizePluralSingular (name : String) : String :=
  match IRREGULAR_PLURALS name with
  | some s => s
  | none =>
    if strEndsWith name "ies" ∧ strLen name > 4 then
      strDropRight name 3 ++ "y"
    else if (strEndsWith name "ses" ∨ strEndsWith name "xes" ∨
        strEndsWith name "zes" ∨ strEndsWith name "ches" ∨
        strEndsWith name "shes") ∧ strLen name > 4 then
      strDropRight name 2
    else if strEndsWith name "s" ∧ ¬ strEndsWith name "ss" ∧
        ¬ strEndsWith name "us" ∧ strLen name > 3 then
      strDropRight name 1
    else name

/-- `toPlural(singular)` from featureDetector.js. -/
def toPlural (singular : String) : String :=
  if strEndsWith singular "y" ∧
      ¬ (["ay", "ey", "iy", "oy", "uy"].any
        (fun v => strEndsWith singular v)) then
    strDropRight singular 1 ++ "ies"
  else if ["s", "x", "z", "ch", "sh"].any
      (fun v => strEndsWith singular v) then
    singular ++ "es"
  else singular ++ "s"

/-- A feature before expansion: the display name and its hubs (the
    `hubPaths` reporting map of the source is not modelled; nothing
    reads it). -/
structure FeatureG where
  name : String
  hubs : List Hub
deriving Repr, DecidableEq

/-- The state of `groupHubsByFeature`: the features object and the
    name-frequency object, both in JS key insertion order. -/
structure GroupSt where
  features : List (String × FeatureG)
  nameFreq : List (String × List (String × Nat))
deriving Repr, DecidableEq

/-- Processing of one hub by `groupHubsByFeature`. -/
def groupStep (st : GroupSt) (hub : Hub) : GroupSt :=
  match extractFeatureName hub.path with
  | none => st
  | some featureName =>
    let canonicalName := detectFeatureRelationships featureName
    let singular := normalizePluralSingular canonicalName
    let plural := toPlural singular
    let freq0 := (aget st.nameFreq singular).getD []
    let freq1 :=
      aset freq0 canonicalName ((aget freq0 canonicalName).getD 0 + 1)
    let nameFreq2 := aset st.nameFreq singular freq1
    let features1 :=
      if (aget st.features singular).isSome then st.features
      else
        match aget st.features plural with
        | some f => adel (aset st.features singular f) plural
        | none => st.features
    let features2 :=
      match aget features1 singular with
      | some f => aset features1 singular ⟨f.name, f.hubs ++ [hub]⟩
      | none => features1 ++ [(singular, ⟨singular, [hub]⟩)]
    ⟨features2, nameFreq2⟩

/-- The display-name vote of `groupHubsByFeature`: the most frequent
    raw variant, the singular key when no variant beats zero. -/
def bestNameOf (k : String) (freqs : List (String × Nat)) : String :=
  (freqs.foldl (fun (bn : String × Nat) e =>
    if e.2 > bn.2 then (e.1, e.2) else bn) (k, 0)).1

/-- `groupHubsByFeature(hubs)` from featureDetector.js, including the
    final display-name renaming pass. -/
def groupHubsByFeature (hubs : List Hub) : List (String × FeatureG) :=
  let st := hubs.foldl groupStep ⟨[], []⟩
  st.features.foldl (fun acc p =>
    let best := bestNameOf p.1 ((aget st.nameFreq p.1).getD [])
    aset acc best ⟨best, p.2.hubs⟩) []

/-- `isSharedInfrastructure(filePath)`: the three `SHARED_INFRA_PATTERNS`
    (all case-insensitive). -/
def isSharedInfrastructure (filePath : String) : Bool :=
  let lower := strLower (jsNorm filePath)
  strContains lower "/components/ui/" ∨
  reTestEnd (rcat [rstr "/lib/utils.",
    ralts [rstr "ts", rstr "js", rstr "tsx", rstr "jsx"]]) lower ∨
  reTestEnd (rcat [rstr "/api/index.",
    ralts [rstr "ts", rstr "js", rstr "tsx", rstr "jsx"]]) lower

/-- The traversal state of `findConnectedFiles`. -/
structure TravSt where
  connected : List String
  sharedDeps : List String
  visited : List String
deriving Repr, DecidableEq

/-- The outgoing-edge block of `traverse` in `findConnectedFiles`: the
    relationship targets of the current path joined with the file's
    own `imports.files`, normalized and set-deduplicated. -/
def outgoingOf (relationships : List Relationship)
    (files : List DetectionFile) (path : String) : List String :=
  let normalizedPath := jsNorm path
  let out1 := relationships.foldl (fun acc rel =>
    if jsNorm rel.src = normalizedPath then saddU acc (jsNorm rel.dst)
    else acc) []
  match files.find? (fun f => jsNorm f.path = normalizedPath) with
  | some f => f.importsFiles.foldl
      (fun acc i => saddU acc (jsNorm i)) out1
  | none => out1

/-- The recursive `traverse` of `findConnectedFiles`, with the depth
    guard expressed as fuel: a call at depth `d` carries fuel
    `maxDepth + 1 - d`, so fuel 0 is exactly `depth > maxDepth`. -/
def traverseFuel (relationships : List Relationship)
    (files : List DetectionFile) :
    Nat → String → TravSt → TravSt
  | 0, _, st => st
  | fuel + 1, path, st =>
    if st.visited.contains path then st
    else
      let st1 : TravSt := ⟨st.connected, st.sharedDeps,
        st.visited ++ [path]⟩
      let outgoing := outgoingOf relationships files path
      outgoing.foldl (fun s target =>
        if s.connected.contains target ∨ s.sharedDeps.contains target then
          s
        else if isSharedInfrastructure target then
          ⟨s.connected, s.sharedDeps ++ [target], s.visited⟩
        else
          traverseFuel relationships files fuel target
            ⟨s.connected ++ [target], s.sharedDeps, s.visited⟩) st1

/-- Componentwise growth of a traversal state: every member of each
    component survives into the later state. -/
def TravMono (s t : TravSt) : Prop :=
  (∀ a ∈ s.connected, a ∈ t.connected) ∧
  (∀ a ∈ s.sharedDeps, a ∈ t.sharedDeps) ∧
  (∀ a ∈ s.visited, a ∈ t.visited)

/-- The shared-infrastructure invariant of a traversal state for a
    given hub: connected members other than the hub are never shared
    infrastructure, and shared-dependency entries always are. -/
def C5Inv (hub : String) (s : TravSt) : Prop :=
  (∀ x ∈ s.connected, x = hub ∨ isSharedInfrastructure x = false) ∧
  (∀ y ∈ s.sharedDeps, isSharedInfrastructure y = true)

/-- One iteration of the traversal fold of `findConnectedFiles`,
    exactly the body folded over `outgoingOf` by `traverseFuel`:
    already-collected targets are skipped, shared-infrastructure
    targets go to `sharedDeps` without recursion, anything else is
    added to `connected` and recursed into. -/
def travStep (relationships : List Relationship)
    (files : List DetectionFile) (fuel : Nat) (s : TravSt)
    (target : String) : TravSt :=
  if s.connected.contains target ∨ s.sharedDeps.contains target then s
  else if isSharedInfrastructure target then
    ⟨s.connected, s.sharedDeps ++ [target], s.visited⟩
  else
    traverseFuel relationships files fuel target
      ⟨s.connected ++ [target], s.sharedDeps, s.visited⟩

/-- `findConnectedFiles(hubPath, relationships, files, maxDepth)` from
    featureDetector.js: the files reached by the traversal and the
    shared dependencies collected along the way. -/
def findConnectedFiles (hubPath : String)
    (relationships : List Relationship) (files : List DetectionFile)
    (maxDepth : Nat) : List String × List String :=
  let st := traverseFuel relationships files (maxDepth + 1) hubPath
    ⟨[hubPath], [], []⟩
  (st.connected, st.sharedDeps)

/-- The match `filePath.match(/^(.+\/components\/[^/]+)\//)`: with the
    greedy `.+`, the directory up to the last `/components/<seg>/`
    occurrence (needing at least one character before it). -/
def siblingDirOf (fp : String) : Option String :=
  let cs := fp.data
  let rec go (k : Nat) (rest : List Char) (best : Option String) :
      Option String :=
    match rest with
    | [] => best
    | _ :: tl =>
      let best2 :=
        if k ≥ 1 ∧ List.isPrefixOf "/components/".data rest then
          let after := cs.drop (k + 12)
          let seg := after.takeWhile (fun c => c ≠ '/')
          match seg, after.drop seg.length with
          | _ :: _, '/' :: _ =>
            some (String.mk (cs.take k) ++ "/components/" ++ String.mk seg)
          | _, _ => best
        else best
      go (k + 1) tl best2
  go 0 cs none

/-- A feature after expansion (the `categorized` buckets of the source
    are not modelled; no verified property mentions them). -/
structure FeatureX where
  name : String
  hubs : List Hub
  allFiles : List String
  fileCount : Nat
  sharedDependencies : List String
  apiRoutes : List RouteEntry
deriving Repr, DecidableEq

/-- Expansion of one feature (`expandFeatures` body): union the
    connected files and shared dependencies over the hubs, then the
    components-sibling discovery pass. -/
def expandFeature (relationships : List Relationship)
    (files : List DetectionFile) (f : FeatureG) : FeatureX :=
  let res := f.hubs.foldl (fun (acc : List String × List String) hub =>
    let r := findConnectedFiles hub.path relationships files 2
    (r.1.foldl saddU acc.1, r.2.foldl saddU acc.2)) ([], [])
  let allConnected := res.1
  let allSharedDeps := res.2
  let siblingDirs := allConnected.foldl (fun acc fp =>
    match siblingDirOf fp with
    | some dir =>
      if ¬ strEndsWith (strLower dir) "/components/ui" then saddU acc dir
      else acc
    | none => acc) []
  let allConnected2 :=
    if siblingDirs.length > 0 then
      files.foldl (fun acc f2 =>
        let fp := jsNorm f2.path
        siblingDirs.foldl (fun a dir =>
          if strStartsWith fp (dir ++ "/") ∧ ¬ a.contains fp then
            a ++ [fp]
          else a) acc) allConnected
    else allConnected
  ⟨f.name, f.hubs, allConnected2, allConnected2.length, allSharedDeps,
    f.hubs.flatMap (fun h => h.routes)⟩

/-- `expandFeatures(features, relationships, files)`. -/
def expandFeatures (features : List (String × FeatureG))
    (relationships : List Relationship) (files : List DetectionFile) :
    List (String × FeatureX) :=
  features.map (fun p => (p.1, expandFeature relationships files p.2))

/-- `detectFeatures(analysisData)` from featureDetector.js (the
    coverage metric is only logged by the source and is not part of
    the result). -/
def detectFeatures (files : List DetectionFile)
    (relationships : List Relationship) : List (String × FeatureX) :=
  expandFeatures (groupHubsByFeature (identifyHubs files))
    relationships files

/-- Statement vocabulary for the relationship-graph invariants: the
    properties of an edge accumulator maintained by
    `buildRelationshipGraph` — every `uses` edge has an `imports`
    partner and a layer-transition justification, and `uses` triples
    are unique. -/
def C6Inv (files : List GraphFile) (tm : List (String × String))
    (acc : List Relationship) : Prop :=
  (∀ e ∈ acc, e.rtype = "uses" →
    (∃ e2 ∈ acc, e2.rtype = "imports" ∧ e2.src = e.src ∧ e2.dst = e.dst) ∧
    (∃ fsrc ∈ files, jsNorm fsrc.path = e.src ∧
      ∃ ts, LAYER_TRANSITIONS fsrc.ftype = some ts ∧
        ∃ tt, aget tm e.dst = some tt ∧ tt ∈ ts)) ∧
  (∀ s d, ((acc.filter (fun r =>
    r.src = s ∧ r.dst = d ∧ r.rtype = "uses")).length ≤ 1))

/-! Code analyzer (scan.service.js, `analyzeCode` and helpers).  The
    regex passes of the analyzer are implemented as hand scanners over
    character lists; each scanner replicates the leftmost-match,
    greedy/lazy and global-continuation semantics of the regex it
    stands for.  None of these regexes carries the `i` flag, so the
    literals are case-sensitive. -/

/-- JS `s.toUpperCase()` (ASCII). -/
def strUpper (s : String) : String := String.mk (s.data.map Char.toUpper)

/-- JS `s.trim()` (ASCII whitespace). -/
def strTrim (s : String) : String :=
  String.mk ((s.data.dropWhile wsChar).reverse.dropWhile wsChar).reverse

/-- Case-sensitive literal: the rest on success. -/
def pTok (lit : String) (cs : List Char) : Option (List Char) :=
  if List.isPrefixOf lit.data cs then some (cs.drop lit.data.length)
  else none

/-- The regex piece `\s*`. -/
def pWS (cs : List Char) : List Char := cs.dropWhile wsChar

/-- The regex piece `\s+`. -/
def pWS1 (cs : List Char) : Option (List Char) :=
  match cs with
  | c :: _ => if wsChar c then some (cs.dropWhile wsChar) else none
  | [] => none

/-- The regex piece `(\w+)` (greedy, at least one). -/
def pWord (cs : List Char) : Option (String × List Char) :=
  let w := cs.takeWhile wordChar
  if w.isEmpty then none
  else some (String.mk w, cs.drop w.length)

/-- Is this character one of the three JS quote characters? -/
def isQuote (c : Char) : Bool := c = quoteS ∨ c = quoteD ∨ c = quoteB

/-- The regex piece `['"`]([^'"`]+)['"`]`: a quoted specifier (the
    closing quote may be any of the three quote characters). -/
def pQuoted (cs : List Char) : Option (String × List Char) :=
  match cs with
  | c :: tl =>
    if isQuote c then
      let inner := tl.takeWhile (fun x => ¬ isQuote x)
      if inner.isEmpty then none
      else
        match tl.drop inner.length with
        | c2 :: rest => if isQuote c2 then some (String.mk inner, rest)
          else none
        | [] => none
    else none
  | [] => none

/-- The regex piece `\{\s*([^}]..)\s*\}`: a braced capture; with the
    greedy inner class the capture runs from after the leading
    whitespace to the closing brace. -/
def pBraced (allowEmpty : Bool) (cs : List Char) :
    Option (String × List Char) :=
  match cs with
  | c :: tl =>
    if c = braceL then
      let wsRun := tl.takeWhile wsChar
      let tl2 := tl.drop wsRun.length
      let inner := tl2.takeWhile (fun x => x ≠ braceR)
      match tl2.drop inner.length with
      | c2 :: rest =>
        if c2 = braceR then
          if inner.isEmpty ∧ ¬ allowEmpty then
            if wsRun.isEmpty then none
            else some (String.mk [wsRun.getLastD ' '], rest)
          else some (String.mk inner, rest)
        else none
      | [] => none
    else none
  | [] => none

/-- JS `re.exec` driven `matchAll`: scan every position left to right,
    emitting each match and continuing after its end. -/
def scanAllAux {α : Type} (tryHere : List Char → Option (α × List Char)) :
    Nat → List Char → List α
  | 0, _ => []
  | _ + 1, [] => []
  | fuel + 1, l@(_ :: tl) =>
    match tryHere l with
    | some (a, rest) => a :: scanAllAux tryHere fuel rest
    | none => scanAllAux tryHere fuel tl

/-- JS `content.matchAll(re)` for the hand scanner `tryHere`. -/
def scanAll {α : Type} (tryHere : List Char → Option (α × List Char))
    (cs : List Char) : List α :=
  scanAllAux tryHere cs.length cs

/-- `matchAll` for a pattern with a look-behind on the previous
    character (used by the bare-`require` pass). -/
def scanAllPrevAux {α : Type}
    (tryHere : Option Char → List Char → Option (α × List Char)) :
    Nat → Option Char → List Char → List α
  | 0, _, _ => []
  | _ + 1, _, [] => []
  | fuel + 1, prev, l@(c :: tl) =>
    match tryHere prev l with
    | some (a, rest) => a :: scanAllPrevAux tryHere fuel
        (l.get? (l.length - rest.length - 1)) rest
    | none => scanAllPrevAux tryHere fuel (some c) tl

/-- `matchAll` with a look-behind on the previous character. -/
def scanAllPrev {α : Type}
    (tryHere : Option Char → List Char → Option (α × List Char))
    (cs : List Char) : List α :=
  scanAllPrevAux tryHere cs.length none cs

/-- One occurrence of the split pattern `\s+as\s+`. -/
def trySplitAs (cs : List Char) : Option (List Char) :=
  (pWS1 cs).bind fun r1 =>
  (pTok "as" r1).bind fun r2 =>
  pWS1 r2

/-- Split on every occurrence of `\s+as\s+` (as `split(/\s+as\s+/)`). -/
def splitAsWsAux : Nat → List Char → List Char → List (List Char)
  | 0, cur, _ => [cur.reverse]
  | _ + 1, cur, [] => [cur.reverse]
  | fuel + 1, cur, l@(c :: tl) =>
    match trySplitAs l with
    | some rest => cur.reverse :: splitAsWsAux fuel [] rest
    | none => splitAsWsAux fuel (c :: cur) tl

/-- JS `s.split(/\s+as\s+/)` over a character list. -/
def splitAsWs (cs : List Char) : List (List Char) :=
  splitAsWsAux cs.length [] cs

/-- JS `replace(/[-.](\w)/g, (_, c) => c.toUpperCase())`. -/
def camelize : List Char → List Char
  | [] => []
  | [a] => [a]
  | a :: b :: tl =>
    if (a = '-' ∨ a = '.') ∧ wordChar b then b.toUpper :: camelize tl
    else a :: camelize (b :: tl)

/-- `parseNamedList(listStr)` from scan.service.js: split a named
    list of imports or exports on commas, each entry split on ` as `, dropping
    entries with an empty side. -/
def parseNamedList (listStr : String) : List (String × String) :=
  if strTrim listStr = "" then []
  else
    ((splitChar ',' listStr).map (fun s =>
      let parts := splitAsWs (strTrim s).data
      let imported := strTrim (String.mk (parts.headD []))
      let loc :=
        match parts.get? 1 with
        | some p => strTrim (String.mk p)
        | none => imported
      (imported, loc))).filter (fun n => n.1 ≠ "" ∧ n.2 ≠ "")

/-- `deriveImportName(modulePath)` from scan.service.js. -/
def deriveImportName (modulePath : String) : String :=
  if modulePath = "" then ""
  else
    let cleaned :=
      if strStartsWith modulePath "../" then strDrop modulePath 3
      else if strStartsWith modulePath "./" then strDrop modulePath 2
      else modulePath
    let cleaned2 :=
      if strStartsWith cleaned "@" ∧ strContains cleaned "/" then
        match (splitChar '/' cleaned).get? 1 with
        | some s => if s = "" then cleaned else s
        | none => cleaned
      else cleaned
    let segments := (splitChar '/' cleaned2).filter (fun x => x ≠ "")
    let name0 := segments.getLastD cleaned2
    let name1 :=
      match ["js", "jsx", "ts", "tsx", "mjs", "cjs", "vue", "svelte",
          "json"].find?
        (fun e => strEndsWith (strLower name0) ("." ++ e)) with
      | some e => strDropRight name0 (strLen e + 1)
      | none => name0
    let name2 :=
      if name1 = "index" ∧ segments.length ≥ 2 then
        (segments.get? (segments.length - 2)).getD name1
      else name1
    String.mk (camelize name2.data)

/-! Raw import records: one per regex hit, before deduplication and
    normalization.  Absent JS fields are `none`/`false`; the JS field
    `namespace` is `nspace` (a Lean keyword otherwise). -/

structure RawImport where
  itype : String
  value : String
  isTypeOnly : Bool
  idefault : Option String
  named : Option (List (String × String))
  nspace : Option String
  sideEffect : Bool
deriving Repr, DecidableEq

/-- A plain raw import with only a type and value. -/
def mkRawImport (t v : String) : RawImport :=
  ⟨t, v, false, none, none, none, false⟩

/-- The tail `from\s+['"`]([^'"`]+)['"`]` shared by the import
    passes (with `\s+` before `from` handled by the callers). -/
def pFromQuoted (cs : List Char) : Option (String × List Char) :=
  (pTok "from" cs).bind fun r1 =>
  (pWS1 r1).bind fun r2 =>
  pQuoted r2

/-- Pass `import\s+type\s+\{\s*([^}]+)\s*\}\s+from\s+...`. -/
def tryImpTypeNamed (cs : List Char) : Option (RawImport × List Char) :=
  (pTok "import" cs).bind fun r1 =>
  (pWS1 r1).bind fun r2 =>
  (pTok "type" r2).bind fun r3 =>
  (pWS1 r3).bind fun r4 =>
  (pBraced false r4).bind fun (inner, r5) =>
  (pWS1 r5).bind fun r6 =>
  (pFromQuoted r6).map fun (q, r7) =>
  (⟨"esm", q, true, none, some (parseNamedList inner), none, false⟩, r7)

/-- Pass `import\s+type\s+(\w+)\s+from\s+...`. -/
def tryImpTypeDefault (cs : List Char) : Option (RawImport × List Char) :=
  (pTok "import" cs).bind fun r1 =>
  (pWS1 r1).bind fun r2 =>
  (pTok "type" r2).bind fun r3 =>
  (pWS1 r3).bind fun r4 =>
  (pWord r4).bind fun (w, r5) =>
  (pWS1 r5).bind fun r6 =>
  (pFromQuoted r6).map fun (q, r7) =>
  (⟨"esm", q, true, some w, none, none, false⟩, r7)

/-- Pass `import\s+type\s+\*\s+as\s+(\w+)\s+from\s+...`. -/
def tryImpTypeNs (cs : List Char) : Option (RawImport × List Char) :=
  (pTok "import" cs).bind fun r1 =>
  (pWS1 r1).bind fun r2 =>
  (pTok "type" r2).bind fun r3 =>
  (pWS1 r3).bind fun r4 =>
  (pTok "*" r4).bind fun r5 =>
  (pWS1 r5).bind fun r6 =>
  (pTok "as" r6).bind fun r7 =>
  (pWS1 r7).bind fun r8 =>
  (pWord r8).bind fun (w, r9) =>
  (pWS1 r9).bind fun r10 =>
  (pFromQuoted r10).map fun (q, r11) =>
  (⟨"esm", q, true, none, none, some w, false⟩, r11)

/-- Pass `import\s+(\w+)\s*,\s*\{\s*([^}]*)\s*\}\s+from\s+...`. -/
def tryImpDefaultNamed (cs : List Char) : Option (RawImport × List Char) :=
  (pTok "import" cs).bind fun r1 =>
  (pWS1 r1).bind fun r2 =>
  (pWord r2).bind fun (d, r3) =>
  (pTok "," (pWS r3)).bind fun r4 =>
  (pBraced true (pWS r4)).bind fun (inner, r5) =>
  (pWS1 r5).bind fun r6 =>
  (pFromQuoted r6).map fun (q, r7) =>
  (⟨"esm", q, false, some d, some (parseNamedList inner), none, false⟩,
    r7)

/-- Pass `import\s+(\w+)\s*,\s*\*\s+as\s+(\w+)\s+from\s+...`. -/
def tryImpDefaultNs (cs : List Char) : Option (RawImport × List Char) :=
  (pTok "import" cs).bind fun r1 =>
  (pWS1 r1).bind fun r2 =>
  (pWord r2).bind fun (d, r3) =>
  (pTok "," (pWS r3)).bind fun r4 =>
  (pTok "*" (pWS r4)).bind fun r5 =>
  (pWS1 r5).bind fun r6 =>
  (pTok "as" r6).bind fun r7 =>
  (pWS1 r7).bind fun r8 =>
  (pWord r8).bind fun (w, r9) =>
  (pWS1 r9).bind fun r10 =>
  (pFromQuoted r10).map fun (q, r11) =>
  (⟨"esm", q, false, some d, none, some w, false⟩, r11)

/-- Does the matched text contain `\btype\s+\{` (the vestigial skip
    check of the plain named-import pass)? -/
def hasBTypeBrace : Option Char → List Char → Bool
  | _, [] => false
  | prev, l@(c :: tl) =>
    ((match prev with | none => true | some p => ! wordChar p) &&
      ((pTok "type" l).bind (fun r =>
        (pWS1 r).bind (fun r2 =>
          if r2.head? = some braceL then some () else none))).isSome) ||
    hasBTypeBrace (some c) tl

/-- Pass `import\s+\{\s*([^}]*)\s*\}\s+from\s+...`, with the source's
    skip of matches whose text contains `\btype\s+\{`; a skipped match
    is consumed but contributes nothing. -/
def tryImpNamed (cs : List Char) :
    Option (Option RawImport × List Char) :=
  (pTok "import" cs).bind fun r1 =>
  (pWS1 r1).bind fun r2 =>
  (pBraced true r2).bind fun (inner, r3) =>
  (pWS1 r3).bind fun r4 =>
  (pFromQuoted r4).map fun (q, r5) =>
  let consumed := cs.take (cs.length - r5.length)
  (if hasBTypeBrace none consumed then none
   else some ⟨"esm", q, false, none, some (parseNamedList inner), none,
     false⟩, r5)

/-- Pass `import\s+\*\s+as\s+(\w+)\s+from\s+...`. -/
def tryImpNs (cs : List Char) : Option (RawImport × List Char) :=
  (pTok "import" cs).bind fun r1 =>
  (pWS1 r1).bind fun r2 =>
  (pTok "*" r2).bind fun r3 =>
  (pWS1 r3).bind fun r4 =>
  (pTok "as" r4).bind fun r5 =>
  (pWS1 r5).bind fun r6 =>
  (pWord r6).bind fun (w, r7) =>
  (pWS1 r7).bind fun r8 =>
  (pFromQuoted r8).map fun (q, r9) =>
  (⟨"esm", q, false, none, none, some w, false⟩, r9)

/-- Pass `import\s+(\w+)\s+from\s+...` (plain default import). -/
def tryImpDefault (cs : List Char) : Option (RawImport × List Char) :=
  (pTok "import" cs).bind fun r1 =>
  (pWS1 r1).bind fun r2 =>
  (pWord r2).bind fun (d, r3) =>
  (pWS1 r3).bind fun r4 =>
  (pFromQuoted r4).map fun (q, r5) =>
  (⟨"esm", q, false, some d, none, none, false⟩, r5)

/-- Pass `import\s+['"`]([^'"`]+)['"`]\s*;?` (a candidate
    side-effect use); returns the specifier and the matched text, whose line is
    inspected by the caller. -/
def tryImpSideEffect (cs : List Char) :
    Option ((String × List Char) × List Char) :=
  (pTok "import" cs).bind fun r1 =>
  (pWS1 r1).bind fun r2 =>
  (pQuoted r2).map fun (q, r3) =>
  let r4 := r3.dropWhile wsChar
  let r5 := if r4.head? = some ';' then r4.tail else r4
  ((q, cs.take (cs.length - r5.length)), r5)

/-- Test `/\bfrom\s+['"`]/` on a line (the side-effect pass check). -/
def hasFromQuote : Option Char → List Char → Bool
  | _, [] => false
  | prev, l@(c :: tl) =>
    ((match prev with | none => true | some p => ! wordChar p) &&
      ((pTok "from" l).bind (fun r =>
        (pWS1 r).bind (fun r2 =>
          if (r2.head?.map isQuote).getD false then some () else none))
        ).isSome) ||
    hasFromQuote (some c) tl

/-- The line (to the next newline) starting at the first occurrence of
    `m0` in `cs`, as used by the side-effect pass through
    `content.indexOf(fullMatch)`. -/
def lineAtFirstOccurrence (m0 : List Char) : List Char → List Char
  | [] => []
  | l@(_ :: tl) =>
    if List.isPrefixOf m0 l then l.takeWhile (fun c => c ≠ '\n')
    else lineAtFirstOccurrence m0 tl

/-- The lazy middle of the fallback pass
    `import\s+.+?\s+from\s+['"`]...`: after at least one non-newline
    character, the first position where `\s+from\s+['"`]...` parses. -/
def lazyMiddleFrom : List Char → Option (String × List Char)
  | [] => none
  | c :: cs =>
    if dotChar c then
      match (pWS1 cs).bind (fun r =>
        (pFromQuoted r)) with
      | some (q, r) => some (q, r)
      | none => lazyMiddleFrom cs
    else none

/-- Pass `import\s+.+?\s+from\s+['"`]([^'"`]+)['"`]` (fallback). -/
def tryImpFallback (cs : List Char) : Option (String × List Char) :=
  (pTok "import" cs).bind fun r1 =>
  (pWS1 r1).bind fun r2 =>
  lazyMiddleFrom r2

/-- Pass `(?:const|let|var)\s+(\{[^}]*\}|\w+)\s*=\s*require\s*\(\s*...`
    (bound CommonJS require). -/
def tryCjsBind (cs : List Char) : Option (RawImport × List Char) :=
  ((pTok "const" cs).orElse fun _ =>
    (pTok "let" cs).orElse fun _ => pTok "var" cs).bind fun r1 =>
  (pWS1 r1).bind fun r2 =>
  (match r2 with
   | c :: tl =>
     if c = braceL then
       let inner := tl.takeWhile (fun x => x ≠ braceR)
       match tl.drop inner.length with
       | c2 :: rest =>
         if c2 = braceR then
           some ((String.mk ((braceL :: inner) ++ [braceR]), true), rest)
         else none
       | [] => none
     else (pWord r2).map fun (w, r3) => ((w, false), r3)
   | [] => none).bind fun ((binding, isDestructure), r3) =>
  (pTok "=" (pWS r3)).bind fun r4 =>
  (pTok "require" (pWS r4)).bind fun r5 =>
  (pTok "(" (pWS r5)).bind fun r6 =>
  (pQuoted (pWS r6)).bind fun (q, r7) =>
  (pTok ")" (pWS r7)).map fun r8 =>
  (if isDestructure then
    ⟨"cjs", q, false, none,
      some (parseNamedList (strDropRight (strDrop binding 1) 1)), none,
      false⟩
   else ⟨"cjs", q, false, some binding, none, none, false⟩, r8)

/-- Pass `(?<![a-zA-Z0-9_])\s*require\s*\(\s*['"`]...['"`]\s*\)` (bare
    require); returns the specifier and the text after the match for
    the chained-call check. -/
def tryCjsBare (prev : Option Char) (cs : List Char) :
    Option ((String × List Char) × List Char) :=
  if (prev.map wordChar).getD false then none
  else
    (pTok "require" (pWS cs)).bind fun r1 =>
    (pTok "(" (pWS r1)).bind fun r2 =>
    (pQuoted (pWS r2)).bind fun (q, r3) =>
    (pTok ")" (pWS r3)).map fun r4 =>
    ((q, r4), r4)

/-- The chained-call check of the bare-require pass:
    `afterChar.startsWith('.') && /^\.\s*\w+\s*\(/.test(afterChar)`
    on the trimmed text after the match. -/
def isChainedCall (after : List Char) : Bool :=
  let a := after.dropWhile wsChar
  (a.head? = some '.') ∧
  ((pTok "." a).bind (fun r1 =>
    (pWord (pWS r1)).bind (fun (_, r2) =>
      pTok "(" (pWS r2)))).isSome

/-- The raw import list of `analyzeCode`: all passes in source order,
    with the conditional pushes of the default, side-effect, fallback
    and bare-require passes checked against the list accumulated so
    far. -/
def collectRawImports (content : String) : List RawImport :=
  let cs := content.data
  let acc7 :=
    scanAll tryImpTypeNamed cs ++ scanAll tryImpTypeDefault cs ++
    scanAll tryImpTypeNs cs ++ scanAll tryImpDefaultNamed cs ++
    scanAll tryImpDefaultNs cs ++
    (scanAll tryImpNamed cs).filterMap id ++ scanAll tryImpNs cs
  let acc8 := (scanAll tryImpDefault cs).foldl (fun acc m =>
    if acc.any (fun i => i.value = m.value ∧
        (i.idefault.isSome ∨ i.nspace.isSome)) then acc
    else acc ++ [m]) acc7
  let acc9 := (scanAll tryImpSideEffect cs).foldl (fun acc m =>
    let line := lineAtFirstOccurrence m.2 cs
    if hasFromQuote none line then acc
    else acc ++ [⟨"esm", m.1, false, none, none, none, true⟩]) acc8
  let acc10 := (scanAll tryImpFallback cs).foldl (fun acc v =>
    if acc.any (fun i => i.value = v) then acc
    else acc ++ [mkRawImport "esm" v]) acc9
  let acc11 := acc10 ++ scanAll tryCjsBind cs
  (scanAllPrev tryCjsBare cs).foldl (fun acc m =>
    if acc.any (fun i => i.value = m.1 ∧ i.itype = "cjs") then acc
    else if isChainedCall m.2 then acc
    else acc ++ [mkRawImport "cjs" m.1]) acc11

/-! Export extraction, `inferExportKind`, API calls, routes,
    components and functions of `analyzeCode`. -/

/-- A literal given as a character list. -/
def pTokL (lit : List Char) (cs : List Char) : Option (List Char) :=
  if List.isPrefixOf lit cs then some (cs.drop lit.length) else none

/-- A possibly empty `[A-Za-z0-9_]*` capture. -/
def pWordStar (cs : List Char) : String × List Char :=
  let w := cs.takeWhile wordChar
  (String.mk w, cs.drop w.length)

/-- The first literal of the list that is a prefix here (the regex
    alternations used below have pairwise distinct first characters,
    so first-match equals alternation order without backtracking). -/
def oneOfTok (lits : List String) (cs : List Char) :
    Option (String × List Char) :=
  match lits.find? (fun lit => List.isPrefixOf lit.data cs) with
  | some lit => some (lit, cs.drop lit.data.length)
  | none => none

/-- A word boundary `\b` between the previous character and `c`. -/
def bchk (prev : Option Char) (c : Char) : Bool :=
  ((prev.map wordChar).getD false) != wordChar c

/-- `re.test`: does the position-wise check hold anywhere? -/
def testScanAux (tryHere : Option Char → List Char → Bool) :
    Option Char → List Char → Bool
  | _, [] => false
  | prev, l@(c :: tl) => tryHere prev l || testScanAux tryHere (some c) tl

/-- `re.test` over the whole content. -/
def testScan (tryHere : Option Char → List Char → Bool)
    (cs : List Char) : Bool :=
  testScanAux tryHere none cs

/-- `content.match(re)` (first match only), returning the capture. -/
def findFirstMap {α : Type} (tryHere : List Char → Option α) :
    List Char → Option α
  | [] => none
  | l@(_ :: tl) =>
    match tryHere l with
    | some a => some a
    | none => findFirstMap tryHere tl

/-- The two-quote class `['"]([^'"]+)['"]` (no backtick). -/
def pQuoted2 (cs : List Char) : Option (String × List Char) :=
  match cs with
  | c :: tl =>
    if c = quoteS ∨ c = quoteD then
      let inner := tl.takeWhile (fun x => ¬ (x = quoteS ∨ x = quoteD))
      if inner.isEmpty then none
      else
        match tl.drop inner.length with
        | c2 :: rest =>
          if c2 = quoteS ∨ c2 = quoteD then some (String.mk inner, rest)
          else none
        | [] => none
    else none
  | [] => none

/-- `function\s+NAME\s*\(` after an optional `async\s+`. -/
def pFuncNamePar (n : List Char) (cs : List Char) : Option (List Char) :=
  (pTok "function" cs).bind fun r =>
  (pWS1 r).bind fun r2 =>
  (pTokL n r2).bind fun r3 =>
  pTok "(" (pWS r3)

/-- Position check for `\b(?:async\s+)?function\s+NAME\s*\(`. -/
def kindFuncAt (n : List Char) (prev : Option Char) (l : List Char) :
    Bool :=
  (bchk prev 'a' &&
    ((pTok "async" l).bind (fun r =>
      (pWS1 r).bind (fun r2 => pFuncNamePar n r2))).isSome) ||
  (bchk prev 'f' && (pFuncNamePar n l).isSome)

/-- Is the head of the rest a whitespace character or `{`
    (the regex tail `\s*[{\s]`)? -/
def headWsOrBrace (cs : List Char) : Bool :=
  match cs.head? with
  | some c => wsChar c || c = braceL
  | none => false

/-- Position check for `\bclass\s+NAME\s*[{\s]`. -/
def kindClassAt (n : List Char) (prev : Option Char) (l : List Char) :
    Bool :=
  bchk prev 'c' &&
  ((pTok "class" l).bind (fun r =>
    (pWS1 r).bind (fun r2 =>
      (pTokL n r2).bind (fun r3 =>
        if headWsOrBrace r3 then some () else none)))).isSome

/-- Position check for `\b(?:const|let|var)\s+NAME\s*=`. -/
def kindConstAt (n : List Char) (prev : Option Char) (l : List Char) :
    Bool :=
  (! (prev.map wordChar).getD false) &&
  ((oneOfTok ["const", "let", "var"] l).bind (fun (_, r) =>
    (pWS1 r).bind (fun r2 =>
      (pTokL n r2).bind (fun r3 =>
        pTok "=" (pWS r3))))).isSome

/-- The arrow-expression group
    `(?:function|\([^)]*\)\s*=>|[A-Za-z_]\w*\s*=>)`. -/
def pArrowGroup (cs : List Char) : Option Unit :=
  match pTok "function" cs with
  | some _ => some ()
  | none =>
    match cs with
    | c :: tl =>
      if c = '(' then
        let inner := tl.takeWhile (fun x => x ≠ ')')
        match tl.drop inner.length with
        | c2 :: rest =>
          if c2 = ')' then (pTok "=>" (pWS rest)).map (fun _ => ())
          else none
        | [] => none
      else if c.isAlpha ∨ c = '_' then
        let run := tl.takeWhile wordChar
        (pTok "=>" (pWS (tl.drop run.length))).map (fun _ => ())
      else none
    | [] => none

/-- Position check for
    `NAME\s*=\s*(?:async\s+)?(?:function|\(..\)\s*=>|ident\s*=>)`. -/
def arrowAt (n : List Char) (_ : Option Char) (l : List Char) : Bool :=
  ((pTokL n l).bind (fun r =>
    (pTok "=" (pWS r)).bind (fun r2 =>
      let r3 := pWS r2
      match (pTok "async" r3).bind (fun a =>
        (pWS1 a).bind (fun a2 => pArrowGroup a2)) with
      | some u => some u
      | none => pArrowGroup r3))).isSome

/-- Position check for `NAME\s*=\s*async\s*\(`. -/
def arrow2At (n : List Char) (_ : Option Char) (l : List Char) : Bool :=
  ((pTokL n l).bind (fun r =>
    (pTok "=" (pWS r)).bind (fun r2 =>
      (pTok "async" (pWS r2)).bind (fun r3 =>
        pTok "(" (pWS r3))))).isSome

/-- Position check for `\bNAME\s*=\s*(?:async\s+)?function`. -/
def bareFuncAt (n : List Char) (prev : Option Char) (l : List Char) :
    Bool :=
  bchk prev (n.headD ' ') &&
  ((pTokL n l).bind (fun r =>
    (pTok "=" (pWS r)).bind (fun r2 =>
      let r3 := pWS r2
      match (pTok "async" r3).bind (fun a =>
        (pWS1 a).bind (fun a2 => pTok "function" a2)) with
      | some u => some u
      | none => pTok "function" r3))).isSome

/-- Position check for `\bNAME\s*=\s*async\s*\(`. -/
def bareAsyncAt (n : List Char) (prev : Option Char) (l : List Char) :
    Bool :=
  bchk prev (n.headD ' ') && arrow2At n prev l

/-- Position check for `\bNAME\s*=\s*\([^)]*\)\s*=>`. -/
def bareParenArrowAt (n : List Char) (prev : Option Char)
    (l : List Char) : Bool :=
  bchk prev (n.headD ' ') &&
  ((pTokL n l).bind (fun r =>
    (pTok "=" (pWS r)).bind (fun r2 =>
      match pWS r2 with
      | c :: tl =>
        if c = '(' then
          let inner := tl.takeWhile (fun x => x ≠ ')')
          match tl.drop inner.length with
          | c2 :: rest =>
            if c2 = ')' then pTok "=>" (pWS rest) else none
          | [] => none
        else none
      | [] => none))).isSome

/-- `inferExportKind(content, name)` from scan.service.js
    (`escapeRegExp` only quotes the name, so the name is matched
    literally, as the scanners here do). -/
def inferExportKind (content : String) (name : String) : String :=
  if name = "" ∨ strStartsWith name "(" then "unknown"
  else
    let cs := content.data
    let n := name.data
    if testScan (kindFuncAt n) cs then "function"
    else if testScan (kindClassAt n) cs then "class"
    else if testScan (kindConstAt n) cs then
      if testScan (arrowAt n) cs || testScan (arrow2At n) cs then
        "function"
      else "const"
    else if testScan (bareFuncAt n) cs || testScan (bareAsyncAt n) cs ||
        testScan (bareParenArrowAt n) cs then "function"
    else "unknown"

/-- An entry of `analysis.exports`; `source` (set only by the
    re-export pass) is `esource`. -/
structure ExportEntry where
  etype : String
  name : String
  kind : String
  esource : Option String
deriving Repr, DecidableEq

/-- An entry of `analysis.apiCalls` (`method` absent on fetch). -/
structure ApiCall where
  atype : String
  method : Option String
  url : String
deriving Repr, DecidableEq

/-- JS `new Map(list.map(x => [key(x), x])).values()`: keys keep their
    first position, later entries overwrite the value. -/
def dedupLastByKey {α : Type} (key : α → String) (l : List α) :
    List α :=
  l.foldl (fun acc x =>
    if acc.any (fun y => key y = key x) then
      acc.map (fun y => if key y = key x then x else y)
    else acc ++ [x]) []

/-- JS `Set`-style dedup keeping the first occurrence. -/
def dedupFirstByKey {α : Type} (key : α → String) (l : List α) :
    List α :=
  l.foldl (fun acc x =>
    if acc.any (fun y => key y = key x) then acc else acc ++ [x]) []

/-- Pass `export\s+default\s+function\s+([A-Za-z0-9_]+)\s*\(`. -/
def tryExpDefFuncNamed (cs : List Char) :
    Option (String × List Char) :=
  (pTok "export" cs).bind fun r1 =>
  (pWS1 r1).bind fun r2 =>
  (pTok "default" r2).bind fun r3 =>
  (pWS1 r3).bind fun r4 =>
  (pTok "function" r4).bind fun r5 =>
  (pWS1 r5).bind fun r6 =>
  (pWord r6).bind fun (w, r7) =>
  (pTok "(" (pWS r7)).map fun r8 => (w, r8)

/-- Pass `export\s+default\s+class\s+([A-Za-z0-9_]+)[\s{(]`. -/
def tryExpDefClassNamed (cs : List Char) :
    Option (String × List Char) :=
  (pTok "export" cs).bind fun r1 =>
  (pWS1 r1).bind fun r2 =>
  (pTok "default" r2).bind fun r3 =>
  (pWS1 r3).bind fun r4 =>
  (pTok "class" r4).bind fun r5 =>
  (pWS1 r5).bind fun r6 =>
  (pWord r6).bind fun (w, r7) =>
  match r7 with
  | c :: rest =>
    if wsChar c ∨ c = braceL ∨ c = '(' then some (w, rest) else none
  | [] => none

/-- Pass `export\s+default\s+function\s*\(`. -/
def tryExpDefFuncAnon (cs : List Char) : Option (Unit × List Char) :=
  (pTok "export" cs).bind fun r1 =>
  (pWS1 r1).bind fun r2 =>
  (pTok "default" r2).bind fun r3 =>
  (pWS1 r3).bind fun r4 =>
  (pTok "function" r4).bind fun r5 =>
  (pTok "(" (pWS r5)).map fun r6 => ((), r6)

/-- The regex tail `\s*[{\s]` (greedy star, then one more class
    character, with the star giving one back if needed): the consumed
    run, or failure. -/
def consumeWsOrBrace (cs : List Char) : Option (List Char) :=
  let run := cs.takeWhile wsChar
  if run.isEmpty then
    match cs.head? with
    | some c => if c = braceL then some cs.tail else none
    | none => none
  else
    match (cs.drop run.length).head? with
    | some c =>
      if c = braceL then some (cs.drop (run.length + 1))
      else some (cs.drop run.length)
    | none => some (cs.drop run.length)

/-- Pass `export\s+default\s+class\s*[\s{]`. -/
def tryExpDefClassAnon (cs : List Char) : Option (Unit × List Char) :=
  (pTok "export" cs).bind fun r1 =>
  (pWS1 r1).bind fun r2 =>
  (pTok "default" r2).bind fun r3 =>
  (pWS1 r3).bind fun r4 =>
  (pTok "class" r4).bind fun r5 =>
  (consumeWsOrBrace r5).map fun r6 => ((), r6)

/-- Pass `export\s+default\s+([A-Za-z0-9_$.]+)` (name with kind). -/
def tryExpDefOther (cs : List Char) : Option (String × List Char) :=
  (pTok "export" cs).bind fun r1 =>
  (pWS1 r1).bind fun r2 =>
  (pTok "default" r2).bind fun r3 =>
  (pWS1 r3).bind fun r4 =>
  let run := r4.takeWhile (fun c => wordChar c ∨ c = '$' ∨ c = '.')
  if run.isEmpty then none
  else some (String.mk run, r4.drop run.length)

/-- Pass `export\s+(function)\s+([A-Za-z0-9_]+)\s*\(`. -/
def tryExpFunc (cs : List Char) : Option (String × List Char) :=
  (pTok "export" cs).bind fun r1 =>
  (pWS1 r1).bind fun r2 =>
  (pTok "function" r2).bind fun r3 =>
  (pWS1 r3).bind fun r4 =>
  (pWord r4).bind fun (w, r5) =>
  (pTok "(" (pWS r5)).map fun r6 => (w, r6)

/-- Pass `export\s+(class)\s+([A-Za-z0-9_]+)[\s{]`. -/
def tryExpClass (cs : List Char) : Option (String × List Char) :=
  (pTok "export" cs).bind fun r1 =>
  (pWS1 r1).bind fun r2 =>
  (pTok "class" r2).bind fun r3 =>
  (pWS1 r3).bind fun r4 =>
  (pWord r4).bind fun (w, r5) =>
  match r5 with
  | c :: rest =>
    if wsChar c ∨ c = braceL then some (w, rest) else none
  | [] => none

/-- Pass `export\s+(const|let|var)\s+([A-Za-z0-9_]+)`. -/
def tryExpVar (cs : List Char) :
    Option ((String × String) × List Char) :=
  (pTok "export" cs).bind fun r1 =>
  (pWS1 r1).bind fun r2 =>
  (oneOfTok ["const", "let", "var"] r2).bind fun (kw, r3) =>
  (pWS1 r3).bind fun r4 =>
  (pWord r4).map fun (w, r5) => ((w, kw), r5)

/-- Pass `export\s+(type)\s+([A-Za-z0-9_]+)\s*[=<{]`. -/
def tryExpType (cs : List Char) : Option (String × List Char) :=
  (pTok "export" cs).bind fun r1 =>
  (pWS1 r1).bind fun r2 =>
  (pTok "type" r2).bind fun r3 =>
  (pWS1 r3).bind fun r4 =>
  (pWord r4).bind fun (w, r5) =>
  match pWS r5 with
  | c :: rest =>
    if c = '=' ∨ c = '<' ∨ c = braceL then some (w, rest) else none
  | [] => none

/-- Pass `export\s+(interface)\s+([A-Za-z0-9_]+)\s*[<{]`. -/
def tryExpInterface (cs : List Char) : Option (String × List Char) :=
  (pTok "export" cs).bind fun r1 =>
  (pWS1 r1).bind fun r2 =>
  (pTok "interface" r2).bind fun r3 =>
  (pWS1 r3).bind fun r4 =>
  (pWord r4).bind fun (w, r5) =>
  match pWS r5 with
  | c :: rest =>
    if c = '<' ∨ c = braceL then some (w, rest) else none
  | [] => none

/-- Pass `export\s*\{\s*([^}]+)\s*\}\s*from\s*['"`]([^'"`]+)['"`]`. -/
def tryExpReexport (cs : List Char) :
    Option ((String × String) × List Char) :=
  (pTok "export" cs).bind fun r1 =>
  (pBraced false (pWS r1)).bind fun (inner, r2) =>
  (pTok "from" (pWS r2)).bind fun r3 =>
  (pQuoted (pWS r3)).map fun (q, r4) => ((inner, q), r4)

/-- Pass `export\s*\{\s*([^}]+)\s*\}`, with the source's skip when the
    next 30 characters, trimmed, start with `from`. -/
def tryExpLocal (cs : List Char) :
    Option ((String × Bool) × List Char) :=
  (pTok "export" cs).bind fun r1 =>
  (pBraced false (pWS r1)).map fun (inner, r2) =>
  ((inner, List.isPrefixOf "from".data ((r2.take 30).dropWhile wsChar)),
    r2)

/-- The `s.trim().split(/\s+as\s+/)[0].trim()` step of the named
    export lists. -/
def exportedName (s : String) : String :=
  strTrim (String.mk ((splitAsWs (strTrim s).data).headD []))

/-- First match of `module\.exports\s*=\s*\{([\s\S]*?)\}\s*;?` at this
    position (capture up to the first closing brace). -/
def tryCjsObject (cs : List Char) : Option String :=
  (pTok "module.exports" cs).bind fun r1 =>
  (pTok "=" (pWS r1)).bind fun r2 =>
  match pWS r2 with
  | c :: tl =>
    if c = braceL then
      let inner := tl.takeWhile (fun x => x ≠ braceR)
      if (tl.drop inner.length).head? = some braceR then
        some (String.mk inner)
      else none
    else none
  | [] => none

/-- The `^([A-Za-z0-9_]+)(?:\s*:|$)` key of a `module.exports = {..}`
    part, else the part cut before its first colon and trimmed. -/
def cjsKeyName (part : String) : String :=
  let run := part.data.takeWhile wordChar
  let after := part.data.drop run.length
  if ¬ run.isEmpty ∧
      (after.isEmpty ∨ (after.dropWhile wsChar).head? = some ':') then
    String.mk run
  else strTrim (String.mk (part.data.takeWhile (fun c => c ≠ ':')))

/-- `module\.exports\s*=\s*(?:async\s+)?function\s*([A-Za-z0-9_]*)\s*\(`
    at this position. -/
def tryCjsFunc (cs : List Char) : Option String :=
  (pTok "module.exports" cs).bind fun r1 =>
  (pTok "=" (pWS r1)).bind fun r2 =>
  let r3 := pWS r2
  let r4 :=
    match (pTok "async" r3).bind (fun a => pWS1 a) with
    | some a2 => a2
    | none => r3
  (pTok "function" r4).bind fun r5 =>
  let (w, r6) := pWordStar (pWS r5)
  (pTok "(" (pWS r6)).map fun _ => w

/-- `module\.exports\s*=\s*class\s*([A-Za-z0-9_]*)\s*[{\s]` at this
    position. -/
def tryCjsClass (cs : List Char) : Option String :=
  (pTok "module.exports" cs).bind fun r1 =>
  (pTok "=" (pWS r1)).bind fun r2 =>
  (pTok "class" (pWS r2)).bind fun r3 =>
  let (w, r4) := pWordStar (pWS r3)
  (consumeWsOrBrace r4).map fun _ => w

/-- `module\.exports\s*=\s*([A-Za-z0-9_]+)\s*;?(?:\s*//[^\n]*)?` with
    a lookahead for whitespace or the end, at this position. -/
def tryCjsSingle (cs : List Char) : Option String :=
  (pTok "module.exports" cs).bind fun r1 =>
  (pTok "=" (pWS r1)).bind fun r2 =>
  (pWord (pWS r2)).bind fun (w, r3) =>
  let r4 := r3.dropWhile wsChar
  let r5 := if r4.head? = some ';' then r4.tail else r4
  let r6' := r5.dropWhile wsChar
  let r6 :=
    if List.isPrefixOf "//".data r6' then
      (r6'.drop 2).dropWhile (fun c => c ≠ '\n')
    else r5
  if r6.isEmpty ∨ (r6.head?.map wsChar).getD false then some w
  else none

/-- The tail `model\s*\(\s*['"]([^'"]+)['"]\s*,` of the model-export
    pattern. -/
def pModelCall (cs : List Char) : Option String :=
  (pTok "model" cs).bind fun r1 =>
  (pTok "(" (pWS r1)).bind fun r2 =>
  (pQuoted2 (pWS r2)).bind fun (q, r3) =>
  (pTok "," (pWS r3)).map fun _ => q

/-- The greedy optional prefix `(?:[\w.]+\s*\.\s*)?` before a tail:
    try the longest prefix of the word-dot run first, backing off one
    character at a time. -/
def tryPrefixed (tail : List Char → Option String) (r3 : List Char) :
    Nat → Option String
  | 0 => none
  | k + 1 =>
    match (pTok "." (pWS (r3.drop (k + 1)))).bind
        (fun b => tail (pWS b)) with
    | some q => some q
    | none => tryPrefixed tail r3 k

/-- `module\.exports\s*=\s*(?:[\w.]+\s*\.\s*)?model\s*\(\s*['"]..` at
    this position. -/
def tryModelAt (cs : List Char) : Option String :=
  (pTok "module.exports" cs).bind fun r1 =>
  (pTok "=" (pWS r1)).bind fun r2 =>
  let r3 := pWS r2
  let run := r3.takeWhile (fun c => wordChar c ∨ c = '.')
  match tryPrefixed pModelCall r3 run.length with
  | some q => some q
  | none => pModelCall r3

/-- The tail `(\w+)\s*\(` of the call-export pattern. -/
def pCallTail (cs : List Char) : Option String :=
  (pWord cs).bind fun (w, r1) =>
  (pTok "(" (pWS r1)).map fun _ => w

/-- `module\.exports\s*=\s*(?:[\w.]+\s*\.\s*)?(\w+)\s*\(` at this
    position. -/
def tryCallAt (cs : List Char) : Option String :=
  (pTok "module.exports" cs).bind fun r1 =>
  (pTok "=" (pWS r1)).bind fun r2 =>
  let r3 := pWS r2
  let run := r3.takeWhile (fun c => wordChar c ∨ c = '.')
  match tryPrefixed pCallTail r3 run.length with
  | some q => some q
  | none => pCallTail r3

/-- `module\.exports\s*=` at this position (presence test). -/
def tryModuleExportsEq (cs : List Char) : Option Unit :=
  (pTok "module.exports" cs).bind fun r1 =>
  (pTok "=" (pWS r1)).map fun _ => ()

/-- Pass `exports\.([A-Za-z0-9_]+)\s*=`. -/
def tryExportsDot (cs : List Char) : Option (String × List Char) :=
  (pTok "exports." cs).bind fun r1 =>
  (pWord r1).bind fun (w, r2) =>
  (pTok "=" (pWS r2)).map fun r3 => (w, r3)

/-- A kind with the `unknown` fallback replaced. -/
def kindOr (content name fallback : String) : String :=
  let k := inferExportKind content name
  if k ≠ "unknown" then k else fallback

/-- The export list of `analyzeCode`, all passes in source order,
    before deduplication. -/
def collectExports (content : String) : List ExportEntry :=
  let cs := content.data
  let base :=
    (scanAll tryExpDefFuncNamed cs).map
      (fun n => ExportEntry.mk "es_default" n "function" none) ++
    (scanAll tryExpDefClassNamed cs).map
      (fun n => ExportEntry.mk "es_default" n "class" none) ++
    (scanAll tryExpDefFuncAnon cs).map
      (fun _ =>
        ExportEntry.mk "es_default" "(anonymous function)" "function"
          none) ++
    (scanAll tryExpDefClassAnon cs).map
      (fun _ =>
        ExportEntry.mk "es_default" "(anonymous class)" "class" none) ++
    (scanAll tryExpDefOther cs).foldl (fun acc n =>
      if n = "function" ∨ n = "class" then acc
      else acc ++
        [ExportEntry.mk "es_default" n (inferExportKind content n)
          none]) [] ++
    (scanAll tryExpFunc cs).map
      (fun n => ExportEntry.mk "es_named" n "function" none) ++
    (scanAll tryExpClass cs).map
      (fun n => ExportEntry.mk "es_named" n "class" none) ++
    (scanAll tryExpVar cs).map
      (fun m => ExportEntry.mk "es_named" m.1 m.2 none) ++
    (scanAll tryExpType cs).map
      (fun n => ExportEntry.mk "es_named" n "type" none) ++
    (scanAll tryExpInterface cs).map
      (fun n => ExportEntry.mk "es_named" n "interface" none) ++
    (scanAll tryExpReexport cs).foldl (fun acc m =>
      acc ++
        (((splitChar ',' m.1).map exportedName).filter
          (fun n => n ≠ "" ∧ n ≠ "type")).map
          (fun n => ExportEntry.mk "es_reexport" n "named" (some m.2)))
      [] ++
    (scanAll tryExpLocal cs).foldl (fun acc m =>
      if m.2 then acc
      else acc ++
        (((splitChar ',' m.1).map exportedName).filter
          (fun n => n ≠ "" ∧ n ≠ "type")).map
          (fun n =>
            ExportEntry.mk "es_named" n (kindOr content n "named")
              none)) []
  let cjsObj := findFirstMap tryCjsObject cs
  let base2 := base ++
    (match cjsObj with
     | some inner =>
       ((splitChar ',' inner).map strTrim).foldl (fun acc part =>
         if part = "" then acc
         else
           let name := cjsKeyName part
           if name = "" ∨ name = "type" then acc
           else acc ++
             [ExportEntry.mk "cjs_named" name (kindOr content name
               "named") none]) []
     | none => [])
  let base3 := base2 ++
    (if cjsObj.isSome then []
     else
       let f := findFirstMap tryCjsFunc cs
       let c := findFirstMap tryCjsClass cs
       (match f with
        | some n =>
          [ExportEntry.mk "cjs_default"
            (if n = "" then "(anonymous function)" else n) "function"
            none]
        | none => []) ++
       (match c with
        | some n =>
          [ExportEntry.mk "cjs_default"
            (if n = "" then "(anonymous class)" else n) "class" none]
        | none => []) ++
       (if f.isSome ∨ c.isSome then []
        else
          match findFirstMap tryCjsSingle cs with
          | some n =>
            [ExportEntry.mk "cjs_default" n (kindOr content n
              "default") none]
          | none => []))
  let hasCjsDefault := base3.any (fun e => e.etype = "cjs_default")
  let modelM := findFirstMap tryModelAt cs
  let base4 := base3 ++
    (if modelM.isSome ∧ cjsObj.isNone ∧ ¬ hasCjsDefault then
      [ExportEntry.mk "cjs_default" (modelM.getD "") "model" none]
     else if modelM.isNone ∧ cjsObj.isNone ∧ ¬ hasCjsDefault ∧
         (findFirstMap tryModuleExportsEq cs).isSome then
       [ExportEntry.mk "cjs_default"
         (match findFirstMap tryCallAt cs with
          | some w => w ++ "(...)"
          | none => "module.exports") "default" none]
     else [])
  base4 ++
    (scanAll tryExportsDot cs).map
      (fun n => ExportEntry.mk "cjs_named" n (kindOr content n "named")
        none)

/-- Pass `axios\.(get|post|put|delete|patch)\s*\(\s*['"`]..`. -/
def tryAxios (cs : List Char) : Option (ApiCall × List Char) :=
  (pTok "axios." cs).bind fun r1 =>
  (oneOfTok ["get", "post", "put", "delete", "patch"] r1).bind
    fun (m, r2) =>
  (pTok "(" (pWS r2)).bind fun r3 =>
  (pQuoted (pWS r3)).map fun (q, r4) =>
  (⟨"axios", some (strUpper m), q⟩, r4)

/-- Pass `fetch\s*\(\s*['"`]..`. -/
def tryFetch (cs : List Char) : Option (ApiCall × List Char) :=
  (pTok "fetch" cs).bind fun r1 =>
  (pTok "(" (pWS r1)).bind fun r2 =>
  (pQuoted (pWS r2)).map fun (q, r3) =>
  (⟨"fetch", none, q⟩, r3)

/-- Pass `(?:router|app|express)\.(get|post|put|delete|patch|options|`
    `head|all)\s*\(\s*['"`]([^'"`]+)['"`]`. -/
def tryRoute (cs : List Char) : Option (RouteEntry × List Char) :=
  (oneOfTok ["router", "app", "express"] cs).bind fun (_, r0) =>
  (pTok "." r0).bind fun r1 =>
  (oneOfTok ["get", "post", "put", "delete", "patch", "options",
    "head", "all"] r1).bind fun (m, r2) =>
  (pTok "(" (pWS r2)).bind fun r3 =>
  (pQuoted (pWS r3)).map fun (q, r4) =>
  (⟨strUpper m, q⟩, r4)

/-- Pass `<([A-Z][a-zA-Z0-9_]*)` (JSX component reference). -/
def tryComponent (cs : List Char) : Option (String × List Char) :=
  match cs with
  | '<' :: c :: tl =>
    if 'A' ≤ c ∧ c ≤ 'Z' then
      let run := tl.takeWhile wordChar
      some (String.mk (c :: run), tl.drop run.length)
    else none
  | _ => none

/-- Pass `function\s+([A-Za-z0-9_]+)\s*\(`. -/
def tryFuncDecl (cs : List Char) : Option (String × List Char) :=
  (pTok "function" cs).bind fun r1 =>
  (pWS1 r1).bind fun r2 =>
  (pWord r2).bind fun (w, r3) =>
  (pTok "(" (pWS r3)).map fun r4 => (w, r4)

/-- The position after the last `=>` of the leading non-newline run,
    if any (the backtracking of a greedy `.*=>`). -/
def lastArrowEnd (cs : List Char) : Option (List Char) :=
  let run := cs.takeWhile dotChar
  match ((List.range run.length).filter (fun i =>
    run.get? i = some '=' ∧ run.get? (i + 1) = some '>')).getLast? with
  | some i => some (cs.drop (i + 2))
  | none => none

/-- Pass `const\s+([A-Za-z0-9_]+)\s*=\s*\(?\s*.*=>`: the `\s*` parts
    may cross newlines, the `.*` may not, so the arrow is sought on
    the line reached after the optional parenthesis. -/
def tryFuncConst (cs : List Char) : Option (String × List Char) :=
  (pTok "const" cs).bind fun r1 =>
  (pWS1 r1).bind fun r2 =>
  (pWord r2).bind fun (w, r3) =>
  (pTok "=" (pWS r3)).bind fun r4 =>
  let a := r4.dropWhile wsChar
  match
    (match a with
     | '(' :: tl => lastArrowEnd (tl.dropWhile wsChar)
     | _ => none) with
  | some rest => some (w, rest)
  | none => (lastArrowEnd a).map fun rest => (w, rest)

/-! `analyzeCode` assembly and the scan orchestrator first pass. -/

/-- A normalized entry of `analysis.imports`; the JS field `path` is
    `ipath`. -/
structure ImportEntry where
  ipath : String
  value : String
  itype : String
  imported : List String
  resolvedPath : Option String
deriving Repr, DecidableEq

/-- The analysis object of `analyzeCode` (the claim-relevant fields:
    imports, resolvedImports, exports, apiCalls, components,
    functions, routes). -/
structure Analysis where
  imports : List ImportEntry
  resolvedImports : List String
  exports : List ExportEntry
  apiCalls : List ApiCall
  components : List String
  functions : List String
  routes : List RouteEntry
deriving Repr, DecidableEq

/-- The all-empty analysis returned for falsy content. -/
def emptyAnalysis : Analysis := ⟨[], [], [], [], [], [], []⟩

/-- The import-normalization step of `analyzeCode` (names from the
    bindings, else derived from the module path; resolution against
    the project file set). -/
def normalizeImport (filePath : String) (allFilePaths : List String)
    (i : RawImport) : ImportEntry :=
  let names :=
    if i.sideEffect then ["(side-effect)"]
    else
      (match i.idefault with | some d => [d] | none => []) ++
      (match i.named with
       | some ns => ns.map (fun n =>
           if n.1 ≠ n.2 then n.1 ++ " as " ++ n.2 else n.2)
       | none => []) ++
      (match i.nspace with | some ns => ["* as " ++ ns] | none => [])
  let names2 :=
    if names.isEmpty ∧ ¬ i.sideEffect then
      let d := deriveImportName i.value
      if d ≠ "" then [d] else []
    else names
  let rp :=
    if allFilePaths.length > 0 then
      resolveImportPath i.value filePath allFilePaths
    else none
  ⟨rp.getD i.value, i.value, i.itype, names2, rp⟩

/-- `analyzeCode(content, filePath, allFilePaths)` from
    scan.service.js: falsy content (null or empty) yields the empty
    analysis; otherwise the regex passes run in source order, imports
    and exports are deduplicated by key with last-value-wins at the
    first position, imports are normalized, and resolvedImports
    (pushed once per import push) is set-deduplicated. -/
def analyzeCode (content : Option String) (filePath : String)
    (allFilePaths : List String) : Analysis :=
  match content with
  | none => emptyAnalysis
  | some c =>
    if c = "" then emptyAnalysis
    else
      let cs := c.data
      let rawImports := collectRawImports c
      let importsN :=
        (dedupLastByKey (fun i => i.itype ++ "|" ++ i.value)
          rawImports).map (normalizeImport filePath allFilePaths)
      let resolved :=
        if allFilePaths.length > 0 then
          dedupFirstByKey (fun x => x) (rawImports.filterMap
            (fun i => resolveImportPath i.value filePath allFilePaths))
        else []
      let apiCalls := scanAll tryAxios cs ++ scanAll tryFetch cs
      let routes :=
        dedupFirstByKey (fun r => r.method ++ "|" ++ r.rpath)
          (scanAll tryRoute cs)
      let components := dedupFirstByKey (fun x => x)
        (scanAll tryComponent cs)
      let functions := scanAll tryFuncDecl cs ++ scanAll tryFuncConst cs
      let exports :=
        dedupLastByKey (fun e => e.etype ++ "|" ++ e.name ++ "|" ++
          e.kind) (collectExports c)
      ⟨importsN, resolved, exports, apiCalls, components, functions,
        routes⟩

/-- `readFileContent` of scan.service.js on a file of the given size:
    null when the size exceeds MAX_FILE_SIZE = 1024 * 1024 bytes (the
    read-error branch also returns null), else the text. -/
def readFileContent (size : Nat) (text : String) : Option String :=
  if size > 1024 * 1024 then none else some text

/-- One file record of the scanner first pass (`files.push({...})` in
    `scanProject`); the stored `content` field is `content || ''`, so
    it is always a string, kept here as `some` of that string
    (`contentVal`). -/
structure ScannedFile where
  path : String
  contentVal : Option String
  ftype : String
  role : String
  category : String
  analysis : Analysis
deriving Repr, DecidableEq

/-- The first-pass body of `scanProject` for one file: path
    classification, content classification when the content is truthy,
    the confidence-gated merge, and code analysis. -/
def processFile (relativePath : String) (content : Option String)
    (allFilePaths : List String) : ScannedFile :=
  let pathClassification := classifyByPath relativePath
  let contentClassification :=
    match content with
    | some c => if jsTruthy c then classifyByContent c else none
    | none => none
  let merged := mergeClassification pathClassification
    contentClassification
  let analysis := analyzeCode content relativePath allFilePaths
  ⟨relativePath, some (content.getD ""), merged.1, merged.2,
    pathClassification.category, analysis⟩

/-- The first pass of `scanProject` over the (path, read content)
    pairs of the project, with the normalized path set used to resolve
    the imports. -/
def scanProjectFiles (inputs : List (String × Option String)) :
    List ScannedFile :=
  let normalizedFilePaths :=
    dedupFirstByKey (fun x => x) (inputs.map (fun p => jsNorm p.1))
  inputs.map (fun p => processFile p.1 p.2 normalizedFilePaths)

/-- The feature-detection tail of `scanProject`: the relationship
    graph over `{path, type, imports.files}` and `detectFeatures`
    over `{path, type, category, routes, imports.files}`. -/
def scanProjectFeatures (inputs : List (String × Option String)) :
    List (String × FeatureX) :=
  let files := scanProjectFiles inputs
  let relationships := buildRelationshipGraph (files.map (fun f =>
    ⟨f.path, f.ftype, f.analysis.resolvedImports⟩))
  let detectionFiles : List DetectionFile := files.map (fun f =>
    ⟨f.path, f.ftype, f.category, f.analysis.routes,
      f.analysis.resolvedImports⟩)
  detectFeatures detectionFiles relationships

/-! Helper lemmas about the resolver. -/

theorem finishResolve_mem {paths : List String} {rp0 : Option String}
    {r : String} (h : finishResolve paths rp0 = some r) : r ∈ paths := by
  unfold finishResolve at h
  cases rp0 with
  | none => cases h
  | some rp =>
    dsimp only at h
    by_cases h0 : rp = ""
    · rw [if_pos h0] at h; cases h
    · rw [if_neg h0] at h
      cases hb : paths.contains rp with
      | true =>
        rw [hb, if_pos rfl] at h
        injection h with h3
        subst h3
        exact List.mem_of_elem_eq_true hb
      | false =>
        rw [hb, if_neg Bool.false_ne_true] at h
        rcases hfind : RESOLVE_EXTS.find?
            (fun e => paths.contains (rp ++ e)) with _ | e
        · rw [hfind] at h
          rcases hidx : RESOLVE_IDX.find?
              (fun i => paths.contains (rp ++ "/" ++ i)) with _ | i
          · rw [hidx] at h; cases h
          · rw [hidx] at h
            injection h with h3
            subst h3
            have hp := List.find?_some hidx
            exact List.mem_of_elem_eq_true hp
        · rw [hfind] at h
          injection h with h3
          subst h3
          have hp := List.find?_some hfind
          exact List.mem_of_elem_eq_true hp

/-- C1: for every raw specifier, importing-file path and project path
    set, a non-null result of `resolveImportPath` is an element of the
    project path set; and every specifier that does not start with `.`,
    `/`, `@/` or `~/` (an external package) resolves to null. -/
theorem c1_import_resolution_soundness (importPath fromFilePath : String)
    (allFilePaths : List String) :
    (∀ r, resolveImportPath importPath fromFilePath allFilePaths = some r →
      r ∈ allFilePaths) ∧
    (¬ (strStartsWith importPath "." ∨ strStartsWith importPath "/" ∨
        strStartsWith importPath "@/" ∨ strStartsWith importPath "~/") →
      resolveImportPath importPath fromFilePath allFilePaths = none) := by
  constructor
  · intro r h
    unfold resolveImportPath at h
    by_cases he : isExternalSpecifier importPath
    · rw [if_pos he] at h; cases h
    · rw [if_neg he] at h
      exact finishResolve_mem h
  · intro hext
    have he : isExternalSpecifier importPath = true := by
      unfold isExternalSpecifier
      exact decide_eq_true hext
    unfold resolveImportPath
    rw [if_pos he]

/-- Witness for C1 at concrete inputs: a resolved relative import lands
    in the project path set, and an external package resolves to null. -/
theorem c1_import_resolution_soundness_witness :
    ("a/b.js" ∈ ["a/b.js", "a/x.js"]) ∧
    (resolveImportPath "lodash" "a/x.js" ["a/b.js", "a/x.js"] = none) := by
  constructor
  · exact (c1_import_resolution_soundness "./b" "a/x.js"
      ["a/b.js", "a/x.js"]).1 "a/b.js" (by decide)
  · exact (c1_import_resolution_soundness "lodash" "a/x.js"
      ["a/b.js", "a/x.js"]).2 (by decide)


/-! Helper lemmas about the content scorer. -/

theorem maxStep_fst (st : Nat × Option String) (e : String × Nat) :
    (maxStep st e).1 = Nat.max st.1 e.2 := by
  unfold maxStep
  split
  · next h => exact (Nat.max_eq_right (Nat.le_of_lt h)).symm
  · next h => exact (Nat.max_eq_left (by omega)).symm

theorem foldl_maxStep_fst (es : List (String × Nat)) :
    ∀ st : Nat × Option String,
      (es.foldl maxStep st).1 = (es.map Prod.snd).foldl Nat.max st.1 := by
  induction es with
  | nil => intro st; rfl
  | cons e tl ih =>
    intro st
    simp only [List.foldl_cons, List.map_cons]
    rw [ih, maxStep_fst]

theorem maxEntry_fst_eq (content : String) :
    (maxEntry (scoreEntries (contentScores content))).1 =
      maxContentScore content := by
  unfold maxEntry maxContentScore
  rw [foldl_maxStep_fst]
  rfl

theorem jsMin_bounds (s : Nat) (h8 : 8 ≤ s) :
    jsLe (jsDiv 8 22) (jsMin (jsDiv s 22) (jsOfNat 1)) = true ∧
    jsLe (jsMin (jsDiv s 22) (jsOfNat 1)) (jsOfNat 1) = true ∧
    (s ≤ 10 → jsLt (jsMin (jsDiv s 22) (jsOfNat 1)) (jsDiv 1 2) = true) := by
  unfold jsMin
  split
  · next hle =>
    refine ⟨?_, hle, ?_⟩
    · simp only [jsLe, jsDiv, decide_eq_true_eq]
      omega
    · intro h10
      simp only [jsLt, jsDiv, decide_eq_true_eq]
      omega
  · next hle =>
    refine ⟨by decide, by decide, ?_⟩
    intro h10
    simp only [jsLe, jsDiv, jsOfNat, decide_eq_true_eq] at hle
    omega

/-- C10: whenever the content scorer returns a non-null result, its
    confidence lies in the closed interval from 8/22 to 1; and when the
    maximum per-type score is at most 10 (so in particular for scores
    8, 9 and 10), the confidence is strictly below the 0.5 override
    threshold, so a returned content classification does not by itself
    override the path-based type. -/
theorem c10_content_confidence_range (content : String) (r : ContentClass)
    (h : classifyByContent content = some r) :
    jsLe (jsDiv 8 22) r.confidence = true ∧
    jsLe r.confidence (jsOfNat 1) = true ∧
    (maxContentScore content ≤ 10 →
      jsLt r.confidence (jsDiv 1 2) = true) := by
  unfold classifyByContent at h
  cases hc : jsTruthy content with
  | false => rw [hc] at h; simp at h
  | true =>
    rw [hc] at h
    rw [if_neg (by simp)] at h
    simp only [] at h
    rw [maxEntry_fst_eq content] at h
    generalize hms : maxContentScore content = ms at h ⊢
    by_cases h8 : ms ≥ 8
    · rw [if_pos h8] at h
      obtain ⟨b1, b2, b3⟩ := jsMin_bounds ms h8
      have h3 := Option.some.inj h
      rw [← h3]
      exact ⟨b1, b2, b3⟩
    · rw [if_neg h8] at h
      cases h

/-- Witness for C10: the content scorer on a file whose only signal is
    a `Router()` call scores exactly 8 and returns confidence 8/22,
    inside the stated range and below the override threshold. -/
theorem c10_content_confidence_range_witness :
    jsLe (jsDiv 8 22)
      (ContentClass.mk "route" "API route handler" ⟨8, 22⟩).confidence
      = true ∧
    jsLe (ContentClass.mk "route" "API route handler" ⟨8, 22⟩).confidence
      (jsOfNat 1) = true ∧
    (maxContentScore "Router()" ≤ 10 →
      jsLt (ContentClass.mk "route" "API route handler" ⟨8, 22⟩).confidence
        (jsDiv 1 2) = true) :=
  c10_content_confidence_range "Router()"
    ⟨"route", "API route handler", ⟨8, 22⟩⟩ (by decide)

/-- C8 counterexample: `client/app.ts` sits under a frontend root yet
    is classified as the backend entry-point variant, because the
    filename prefix `app.` forces the backend branch regardless of the
    root directory; and `main.ts` at the project root is an entry-point
    filename at depth 1 but is not classified as an entry point at all,
    since neither the backend condition nor a frontend root holds. -/
theorem c8_entry_point_counterexample :
    classifyByPath "client/app.ts" =
      ⟨"entry-point", "Server entry point", "backend"⟩ ∧
    isFrontendRoot "client/app.ts" = true ∧
    ENTRY_POINT_NAMES.contains (strLower "main.ts") = true ∧
    (splitChar '/' "main.ts").length ≤ 3 ∧
    classifyByPath "main.ts" = ⟨"utility", "Script/module", "shared"⟩ := by
  refine ⟨by decide, by decide, by decide, by decide, by decide⟩

/-- C8 amended: for a file whose name is an entry-point name at depth
    at most 3 (and which no earlier classification step captures), the
    backend variant (Server entry point, category backend) is chosen
    when the path has a backend root or the filename starts with
    `server.` or `app.`; otherwise the frontend variant (App entry
    point, category frontend) is chosen when the path has a frontend
    root; when neither condition holds the entry-point rule does not
    apply. -/
theorem c8_entry_point_amended (filePath : String)
    (h1 : isConfigFileName (pathFileName filePath) = false)
    (h2 : isTestFileName (pathFileName filePath) = false)
    (h3 : (pathParts filePath).findSome? testDirRole = none)
    (h4 : isDeclarationFile (pathFileName filePath) = false)
    (h5 : getFileExtension (pathFileName filePath) = ".js" ∨
      getFileExtension (pathFileName filePath) = ".ts" ∨
      getFileExtension (pathFileName filePath) = ".mjs" ∨
      getFileExtension (pathFileName filePath) = ".tsx" ∨
      getFileExtension (pathFileName filePath) = ".jsx")
    (h6 : ENTRY_POINT_NAMES.contains
      (strLower (pathFileName filePath)) = true)
    (h7 : (pathParts filePath).length ≤ 3) :
    ((isBackendRoot (jsNorm filePath) = true ∨
      strStartsWith (strLower (pathFileName filePath)) "server." = true ∨
      strStartsWith (strLower (pathFileName filePath)) "app." = true) →
      classifyByPath filePath =
        ⟨"entry-point", "Server entry point", "backend"⟩) ∧
    (¬ (isBackendRoot (jsNorm filePath) = true ∨
        strStartsWith (strLower (pathFileName filePath)) "server." = true ∨
        strStartsWith (strLower (pathFileName filePath)) "app." = true) →
      isFrontendRoot (jsNorm filePath) = true →
      classifyByPath filePath =
        ⟨"entry-point", "App entry point", "frontend"⟩) := by
  simp only [pathParts, pathFileName] at h1 h2 h3 h4 h5 h6 h7
  constructor
  · intro hb
    simp only [pathParts, pathFileName] at hb
    have hstep : entryPointStep (jsNorm filePath)
        (strLower ((splitChar '/' (jsNorm filePath)).getLastD ""))
        ((splitChar '/' (jsNorm filePath)).length) =
        some ⟨"entry-point", "Server entry point", "backend"⟩ := by
      unfold entryPointStep
      rw [h6]
      simp only [if_true]
      rw [if_pos h7, if_pos hb]
    simp only [List.getLastD_eq_getLast?] at hstep
    unfold classifyByPath
    simp only [h1, h2, h3, h4, Bool.false_eq_true, if_false]
    rcases h5 with hext | hext | hext | hext | hext
    all_goals simp only [hext]
    all_goals simp [hstep]
  · intro hnb hf
    simp only [pathParts, pathFileName] at hnb
    have hstep : entryPointStep (jsNorm filePath)
        (strLower ((splitChar '/' (jsNorm filePath)).getLastD ""))
        ((splitChar '/' (jsNorm filePath)).length) =
        some ⟨"entry-point", "App entry point", "frontend"⟩ := by
      unfold entryPointStep
      rw [h6]
      simp only [if_true]
      rw [if_pos h7, if_neg hnb, if_pos hf]
    simp only [List.getLastD_eq_getLast?] at hstep
    unfold classifyByPath
    simp only [h1, h2, h3, h4, Bool.false_eq_true, if_false]
    rcases h5 with hext | hext | hext | hext | hext
    all_goals simp only [hext]
    all_goals simp [hstep]

/-- Witness for C8 at concrete inputs: the backend and frontend
    entry-point variants. -/
theorem c8_entry_point_amended_witness :
    classifyByPath "server/server.js" =
      ⟨"entry-point", "Server entry point", "backend"⟩ ∧
    classifyByPath "client/src/main.tsx" =
      ⟨"entry-point", "App entry point", "frontend"⟩ :=
  ⟨(c8_entry_point_amended "server/server.js" (by decide) (by decide)
      (by decide) (by decide) (by decide) (by decide) (by decide)).1
      (by decide),
   (c8_entry_point_amended "client/src/main.tsx" (by decide) (by decide)
      (by decide) (by decide) (by decide) (by decide) (by decide)).2
      (by decide) (by decide)⟩


/-! Helper lemmas for the relationship-graph and feature-detector
    theorems. -/

theorem foldl_preserve_mem {α σ : Type} (Q : σ → Prop) (f : σ → α → σ) :
    ∀ (l : List α), (∀ s a, a ∈ l → Q s → Q (f s a)) →
      ∀ s, Q s → Q (l.foldl f s) := by
  intro l
  induction l with
  | nil => intro _ s h; exact h
  | cons a tl ih =>
    intro hf s h
    exact ih (fun s2 a2 ha2 => hf s2 a2 (List.mem_cons_of_mem a ha2)) _
      (hf s a (List.mem_cons_self a tl) h)

theorem aget_aset_self {α : Type} (m : List (String × α)) (k : String)
    (v : α) : aget (aset m k v) k = some v := by
  induction m with
  | nil => simp [aset, aget]
  | cons p tl ih =>
    obtain ⟨pk, pv⟩ := p
    by_cases hk : pk = k
    · simp [aset, aget, hk]
    · simp [aset, aget, hk, ih]

theorem aget_aset_other {α : Type} (m : List (String × α)) (k k2 : String)
    (v : α) (h : k2 ≠ k) : aget (aset m k v) k2 = aget m k2 := by
  induction m with
  | nil => simp [aset, aget, Ne.symm h]
  | cons p tl ih =>
    obtain ⟨pk, pv⟩ := p
    by_cases hk : pk = k
    · subst hk
      simp [aset, aget, Ne.symm h]
    · by_cases hk2 : pk = k2
      · simp [aset, aget, hk, hk2, h]
      · simp [aset, aget, hk, hk2, ih]

theorem typeMapOf_mem_aux (l : List GraphFile) :
    ∀ (m : List (String × String)) (k : String) (v : String),
      aget (l.foldl (fun m2 f => aset m2 (jsNorm f.path) f.ftype) m) k =
        some v →
      (∃ f ∈ l, jsNorm f.path = k ∧ f.ftype = v) ∨ aget m k = some v := by
  induction l with
  | nil => intro m k v h; exact Or.inr h
  | cons f tl ih =>
    intro m k v h
    rcases ih _ _ _ h with hl | hm
    · rcases hl with ⟨f2, hf2, hk, hv⟩
      exact Or.inl ⟨f2, List.mem_cons_of_mem f hf2, hk, hv⟩
    · by_cases hk : k = jsNorm f.path
      · subst hk
        rw [aget_aset_self] at hm
        injection hm with hv
        exact Or.inl ⟨f, List.mem_cons_self f tl, rfl, hv⟩
      · rw [aget_aset_other _ _ _ _ hk] at hm
        exact Or.inr hm

theorem typeMapOf_mem (files : List GraphFile) (k v : String)
    (h : aget (typeMapOf files) k = some v) :
    ∃ f ∈ files, jsNorm f.path = k ∧ f.ftype = v := by
  rcases typeMapOf_mem_aux files [] k v h with hl | hm
  · exact hl
  · cases hm


theorem foldl_mem_mono {α : Type}
    (step : List Relationship → α → List Relationship)
    (hstep : ∀ s a x, x ∈ s → x ∈ step s a) (l : List α) :
    ∀ s x, x ∈ s → x ∈ l.foldl step s := by
  induction l with
  | nil => intro s x hx; exact hx
  | cons a tl ih => intro s x hx; exact ih _ x (hstep s a x hx)

theorem c6inv_append_imports (files : List GraphFile)
    (tm : List (String × String)) (rels edges : List Relationship)
    (himp : ∀ e ∈ edges, e.rtype = "imports")
    (h : C6Inv files tm rels) : C6Inv files tm (rels ++ edges) := by
  constructor
  · intro e he hu
    rcases List.mem_append.mp he with h1 | h2
    · obtain ⟨⟨e2, he2, hprop⟩, htype⟩ := h.1 e h1 hu
      exact ⟨⟨e2, List.mem_append_left _ he2, hprop⟩, htype⟩
    · have : ("imports" : String) = "uses" := (himp e h2).symm.trans hu
      exact absurd this (by decide)
  · intro s d
    rw [List.filter_append]
    have hnil : edges.filter (fun r =>
        r.src = s ∧ r.dst = d ∧ r.rtype = "uses") = [] := by
      rw [List.filter_eq_nil_iff]
      intro a ha
      simp [himp a ha]
    rw [hnil]
    simpa using h.2 s d

theorem c6inv_uses_append (files : List GraphFile)
    (tm : List (String × String)) (acc : List Relationship)
    (f : GraphFile) (hf : f ∈ files) (allowed : List String)
    (ip tt : String)
    (ht : LAYER_TRANSITIONS f.ftype = some allowed)
    (haget : aget tm (jsNorm ip) = some tt)
    (hmem : tt ∈ allowed)
    (hdup : ¬ acc.any (fun r =>
      r.src = jsNorm f.path ∧ r.dst = jsNorm ip ∧ r.rtype = "uses") = true)
    (himpin : (⟨jsNorm f.path, jsNorm ip, "imports"⟩ : Relationship) ∈ acc)
    (h : C6Inv files tm acc) :
    C6Inv files tm
      (acc ++ [⟨jsNorm f.path, jsNorm ip, "uses"⟩]) := by
  constructor
  · intro e he hu
    rcases List.mem_append.mp he with h1 | h2
    · obtain ⟨⟨e2, he2, hprop⟩, htype⟩ := h.1 e h1 hu
      exact ⟨⟨e2, List.mem_append_left _ he2, hprop⟩, htype⟩
    · have he3 : e = ⟨jsNorm f.path, jsNorm ip, "uses"⟩ :=
        List.mem_singleton.mp h2
      subst he3
      exact ⟨⟨⟨jsNorm f.path, jsNorm ip, "imports"⟩,
          List.mem_append_left _ himpin, rfl, rfl, rfl⟩,
        f, hf, rfl, allowed, ht, tt, haget, hmem⟩
  · intro s d
    rw [List.filter_append]
    by_cases hs1 : s = jsNorm f.path
    · by_cases hs2 : d = jsNorm ip
      · subst hs1; subst hs2
        have hnil : acc.filter (fun r =>
            r.src = jsNorm f.path ∧ r.dst = jsNorm ip ∧
              r.rtype = "uses") = [] := by
          rw [List.filter_eq_nil_iff]
          intro a ha hpa
          simp only [List.any_eq_true] at hdup
          exact hdup ⟨a, ha, hpa⟩
        rw [hnil]
        simp
      · have hnil2 : ([(⟨jsNorm f.path, jsNorm ip, "uses"⟩ :
            Relationship)]).filter (fun r =>
            r.src = s ∧ r.dst = d ∧ r.rtype = "uses") = [] := by
          rw [List.filter_eq_nil_iff]
          intro a ha
          have ha2 := List.mem_singleton.mp ha
          subst ha2
          simp only [decide_eq_true_eq]
          intro hcon
          exact hs2 hcon.2.1.symm
        rw [hnil2]
        simpa using h.2 s d
    · have hnil2 : ([(⟨jsNorm f.path, jsNorm ip, "uses"⟩ :
          Relationship)]).filter (fun r =>
          r.src = s ∧ r.dst = d ∧ r.rtype = "uses") = [] := by
        rw [List.filter_eq_nil_iff]
        intro a ha
        have ha2 := List.mem_singleton.mp ha
        subst ha2
        simp only [decide_eq_true_eq]
        intro hcon
        exact hs1 hcon.1.symm
      rw [hnil2]
      simpa using h.2 s d

theorem relStep_inv (files : List GraphFile)
    (tm : List (String × String)) (f : GraphFile) (hf : f ∈ files)
    (rels : List Relationship) (h : C6Inv files tm rels) :
    C6Inv files tm (relStep tm rels f) := by
  unfold relStep
  have himps : ∀ e ∈ f.importsFiles.map (fun ip =>
      (⟨jsNorm f.path, jsNorm ip, "imports"⟩ : Relationship)),
      e.rtype = "imports" := by
    intro e he
    rcases List.mem_map.mp he with ⟨ip, _, rfl⟩
    rfl
  have hbase := c6inv_append_imports files tm rels _ himps h
  cases ht : LAYER_TRANSITIONS f.ftype with
  | none => simpa only [ht] using hbase
  | some allowed =>
    simp only [ht]
    by_cases hl : allowed.length > 0
    · rw [if_pos hl]
      have hfold := foldl_preserve_mem
        (fun acc => C6Inv files tm acc ∧
          ∀ x ∈ rels ++ f.importsFiles.map (fun ip =>
            (⟨jsNorm f.path, jsNorm ip, "imports"⟩ : Relationship)),
            x ∈ acc)
        (fun acc ip =>
          match aget tm (jsNorm ip) with
          | some targetType =>
            if allowed.contains targetType then
              if acc.any (fun r => r.src = jsNorm f.path ∧
                  r.dst = jsNorm ip ∧ r.rtype = "uses") then acc
              else acc ++ [⟨jsNorm f.path, jsNorm ip, "uses"⟩]
            else acc
          | none => acc)
        f.importsFiles ?hstep _ ⟨hbase, fun x hx => hx⟩
      exact hfold.1
      case hstep =>
        intro acc ip hip hq
        obtain ⟨hinv, hsub⟩ := hq
        cases haget : aget tm (jsNorm ip) with
        | none =>
          simp only [haget]
          exact ⟨hinv, hsub⟩
        | some tt =>
          simp only [haget]
          by_cases hmem : allowed.contains tt
          · rw [if_pos hmem]
            by_cases hdup : acc.any (fun r => r.src = jsNorm f.path ∧
                r.dst = jsNorm ip ∧ r.rtype = "uses") = true
            · rw [if_pos hdup]
              exact ⟨hinv, hsub⟩
            · rw [if_neg hdup]
              constructor
              · refine c6inv_uses_append files tm acc f hf allowed ip tt
                  ht haget (List.mem_of_elem_eq_true hmem) hdup ?_ hinv
                exact hsub _ (List.mem_append_right _
                  (List.mem_map.mpr ⟨ip, hip, rfl⟩))
              · intro x hx
                exact List.mem_append_left _ (hsub x hx)
          · rw [if_neg hmem]
            exact ⟨hinv, hsub⟩
    · rw [if_neg hl]
      exact hbase

theorem c6_uses_edge_invariants (files : List GraphFile)
    (hnd : (files.map (fun f => jsNorm f.path)).Nodup) :
    (∀ e ∈ buildRelationshipGraph files, e.rtype = "uses" →
      (∃ e2 ∈ buildRelationshipGraph files,
        e2.rtype = "imports" ∧ e2.src = e.src ∧ e2.dst = e.dst) ∧
      (∃ fsrc ∈ files, jsNorm fsrc.path = e.src ∧
        ∃ ts, LAYER_TRANSITIONS fsrc.ftype = some ts ∧
          ∃ fdst ∈ files, jsNorm fdst.path = e.dst ∧ fdst.ftype ∈ ts)) ∧
    (∀ s d, ((buildRelationshipGraph files).filter (fun r =>
      r.src = s ∧ r.dst = d ∧ r.rtype = "uses")).length ≤ 1) ∧
    (∀ f ∈ files, LAYER_TRANSITIONS f.ftype = none →
      ∀ e ∈ buildRelationshipGraph files, e.rtype = "uses" →
        e.src ≠ jsNorm f.path) := by
  have hinv : C6Inv files (typeMapOf files)
      (buildRelationshipGraph files) := by
    unfold buildRelationshipGraph
    have hnil : C6Inv files (typeMapOf files) [] := by
      constructor
      · intro e he; cases he
      · intro s d; simp
    exact foldl_preserve_mem (C6Inv files (typeMapOf files))
      (relStep (typeMapOf files)) files
      (fun s a ha hq => relStep_inv files _ a ha s hq) [] hnil
  refine ⟨?_, hinv.2, ?_⟩
  · intro e he hu
    obtain ⟨hpartner, fsrc, hfsrc, hsrc, ts, hts, tt, haget, htt⟩ :=
      hinv.1 e he hu
    obtain ⟨fdst, hfdst, hk, hv⟩ := typeMapOf_mem files e.dst tt haget
    exact ⟨hpartner, fsrc, hfsrc, hsrc, ts, hts, fdst, hfdst, hk,
      hv ▸ htt⟩
  · intro f hf htnone e he hu hcontra
    obtain ⟨_, fsrc, hfsrc, hsrc, ts, hts, _⟩ := hinv.1 e he hu
    have heq : fsrc = f :=
      List.inj_on_of_nodup_map hnd hfsrc hf (hsrc.trans hcontra)
    rw [heq, htnone] at hts
    cases hts

/-- Witness for C6 at a concrete project: a route file importing a
    controller produces one deduplicated `uses` edge, and the utility
    file (no layer-transition entry) contributes none. -/
theorem c6_uses_edge_invariants_witness :
    ((buildRelationshipGraph
      [⟨"r/routes/a.js", "route", ["c/controllers/b.js"]⟩,
       ⟨"c/controllers/b.js", "controller", []⟩,
       ⟨"u/x.js", "utility", ["r/routes/a.js"]⟩]).filter (fun r =>
        r.src = "r/routes/a.js" ∧ r.dst = "c/controllers/b.js" ∧
        r.rtype = "uses")).length ≤ 1 ∧
    (⟨"r/routes/a.js", "c/controllers/b.js", "uses"⟩ :
      Relationship).src ≠ jsNorm "u/x.js" :=
  ⟨(c6_uses_edge_invariants
      [⟨"r/routes/a.js", "route", ["c/controllers/b.js"]⟩,
       ⟨"c/controllers/b.js", "controller", []⟩,
       ⟨"u/x.js", "utility", ["r/routes/a.js"]⟩] (by decide)).2.1
      "r/routes/a.js" "c/controllers/b.js",
   (c6_uses_edge_invariants
      [⟨"r/routes/a.js", "route", ["c/controllers/b.js"]⟩,
       ⟨"c/controllers/b.js", "controller", []⟩,
       ⟨"u/x.js", "utility", ["r/routes/a.js"]⟩] (by decide)).2.2
      ⟨"u/x.js", "utility", ["r/routes/a.js"]⟩ (by decide) rfl
      ⟨"r/routes/a.js", "c/controllers/b.js", "uses"⟩ (by decide) rfl⟩

/-- C4: evaluating the feature-expansion traversal on an explicit
    chain of imports hub → a → b → c → d with maxDepth 2 shows that the
    distance-3 file `c.js` is placed in the connected set (and `d.js`
    is not): the guard `depth > maxDepth` still expands the outgoing
    edges of depth-2 files, so `allFiles` reaches distance 3, contrary
    to the claim and to the function's own comment, which promise hub →
    direct imports → their imports only. -/
theorem c4_depth_bound_failing_input :
    (findConnectedFiles "h.js" []
      [⟨"h.js", "route", "backend", [], ["a.js"]⟩,
       ⟨"a.js", "utility", "shared", [], ["b.js"]⟩,
       ⟨"b.js", "utility", "shared", [], ["c.js"]⟩,
       ⟨"c.js", "utility", "shared", [], ["d.js"]⟩] 2).1 =
      ["h.js", "a.js", "b.js", "c.js"] := by decide

/-- C5 counterexample: a hub that itself matches a shared-infrastructure
    pattern (a page under components/ui) is placed in its feature's
    `allFiles` as a traversed member, and its imports are traversed, so
    the claim fails as stated for hub files. -/
theorem c5_shared_infra_counterexample :
    isSharedInfrastructure "src/pages/components/ui/Button.tsx" = true ∧
    (detectFeatures
      [⟨"src/pages/components/ui/Button.tsx", "component", "frontend",
        [], []⟩] []).map
      (fun p => (p.1, p.2.allFiles, p.2.sharedDependencies)) =
      [("button", (["src/pages/components/ui/Button.tsx"], []))] :=
  ⟨by decide, by decide⟩

theorem traverseFuel_succ (rels : List Relationship)
    (files : List DetectionFile) (n : Nat) (path : String) (st : TravSt)
    (hv : st.visited.contains path = false) :
    traverseFuel rels files (n + 1) path st =
      (outgoingOf rels files path).foldl (travStep rels files n)
        ⟨st.connected, st.sharedDeps, st.visited ++ [path]⟩ := by
  unfold traverseFuel
  rw [hv]
  rw [if_neg Bool.false_ne_true]
  rfl

theorem traverseFuel_props (rels : List Relationship)
    (files : List DetectionFile) (hub : String) :
    ∀ (fuel : Nat) (path : String) (st : TravSt), C5Inv hub st →
      C5Inv hub (traverseFuel rels files fuel path st) ∧
      TravMono st (traverseFuel rels files fuel path st) ∧
      (∀ p ∈ (traverseFuel rels files fuel path st).visited,
        p ∉ st.visited →
        ∀ t ∈ outgoingOf rels files p,
          isSharedInfrastructure t = true →
          t ∈ (traverseFuel rels files fuel path st).sharedDeps ∨
            t = hub) := by
  intro fuel
  induction fuel with
  | zero =>
    intro path st h
    exact ⟨h, ⟨fun a ha => ha, fun a ha => ha, fun a ha => ha⟩,
      fun p hp hnp => absurd hp hnp⟩
  | succ n ih =>
    intro path st h
    cases hv : st.visited.contains path with
    | true =>
      have he : traverseFuel rels files (n + 1) path st = st := by
        unfold traverseFuel
        rw [hv]
        rw [if_pos rfl]
      rw [he]
      exact ⟨h, ⟨fun a ha => ha, fun a ha => ha, fun a ha => ha⟩,
        fun p hp hnp => absurd hp hnp⟩
    | false =>
      rw [traverseFuel_succ rels files n path st hv]
      have hfold : ∀ (l : List String) (s : TravSt), C5Inv hub s →
          C5Inv hub (l.foldl (travStep rels files n) s) ∧
          TravMono s (l.foldl (travStep rels files n) s) ∧
          (∀ p ∈ (l.foldl (travStep rels files n) s).visited,
            p ∉ s.visited →
            ∀ t ∈ outgoingOf rels files p,
              isSharedInfrastructure t = true →
              t ∈ (l.foldl (travStep rels files n) s).sharedDeps ∨
                t = hub) ∧
          (∀ t ∈ l, isSharedInfrastructure t = true →
            t ∈ (l.foldl (travStep rels files n) s).connected ∨
              t ∈ (l.foldl (travStep rels files n) s).sharedDeps) := by
        intro l
        induction l with
        | nil =>
          intro s hs
          exact ⟨hs, ⟨fun a ha => ha, fun a ha => ha, fun a ha => ha⟩,
            fun p hp hnp => absurd hp hnp,
            fun t ht => absurd ht (List.not_mem_nil t)⟩
        | cons a tl ihl =>
          intro s hs
          rw [List.foldl_cons]
          by_cases hin : s.connected.contains a = true ∨
              s.sharedDeps.contains a = true
          · have hstep : travStep rels files n s a = s := by
              unfold travStep
              rw [if_pos hin]
            rw [hstep]
            obtain ⟨c1, c2, c3, c4⟩ := ihl s hs
            refine ⟨c1, c2, c3, ?_⟩
            intro t ht hsh
            rcases List.mem_cons.mp ht with rfl | htl
            · rcases hin with hc | hd
              · exact Or.inl (c2.1 t (List.mem_of_elem_eq_true hc))
              · exact Or.inr (c2.2.1 t (List.mem_of_elem_eq_true hd))
            · exact c4 t htl hsh
          · by_cases hsh : isSharedInfrastructure a = true
            · have hstep : travStep rels files n s a =
                  ⟨s.connected, s.sharedDeps ++ [a], s.visited⟩ := by
                unfold travStep
                rw [if_neg hin, if_pos hsh]
              rw [hstep]
              have hs1 : C5Inv hub
                  ⟨s.connected, s.sharedDeps ++ [a], s.visited⟩ := by
                refine ⟨hs.1, ?_⟩
                intro y hy
                rcases List.mem_append.mp hy with h1 | h2
                · exact hs.2 y h1
                · rw [List.mem_singleton.mp h2]
                  exact hsh
              obtain ⟨c1, c2, c3, c4⟩ := ihl _ hs1
              refine ⟨c1, ⟨?_, ?_, ?_⟩, ?_, ?_⟩
              · intro x hx
                exact c2.1 x hx
              · intro x hx
                exact c2.2.1 x (List.mem_append_left _ hx)
              · intro x hx
                exact c2.2.2 x hx
              · intro p hp hnp
                exact c3 p hp hnp
              · intro t ht hsh2
                rcases List.mem_cons.mp ht with rfl | htl
                · exact Or.inr (c2.2.1 t (List.mem_append_right _
                    (List.mem_singleton_self t)))
                · exact c4 t htl hsh2
            · have hshf : isSharedInfrastructure a = false :=
                Bool.not_eq_true _ ▸ hsh
              have hstep : travStep rels files n s a =
                  traverseFuel rels files n a
                    ⟨s.connected ++ [a], s.sharedDeps, s.visited⟩ := by
                unfold travStep
                rw [if_neg hin, if_neg hsh]
              rw [hstep]
              have hs2 : C5Inv hub
                  ⟨s.connected ++ [a], s.sharedDeps, s.visited⟩ := by
                refine ⟨?_, hs.2⟩
                intro x hx
                rcases List.mem_append.mp hx with h1 | h2
                · exact hs.1 x h1
                · rw [List.mem_singleton.mp h2]
                  exact Or.inr hshf
              obtain ⟨r1inv, r1mono, r1new⟩ :=
                ih a ⟨s.connected ++ [a], s.sharedDeps, s.visited⟩ hs2
              obtain ⟨c1, c2, c3, c4⟩ := ihl _ r1inv
              refine ⟨c1, ⟨?_, ?_, ?_⟩, ?_, ?_⟩
              · intro x hx
                exact c2.1 x (r1mono.1 x (List.mem_append_left _ hx))
              · intro x hx
                exact c2.2.1 x (r1mono.2.1 x hx)
              · intro x hx
                exact c2.2.2 x (r1mono.2.2 x hx)
              · intro p hp hnp
                by_cases hpr : p ∈ (traverseFuel rels files n a
                    ⟨s.connected ++ [a], s.sharedDeps, s.visited⟩).visited
                · intro t ht hsht
                  rcases r1new p hpr hnp t ht hsht with hmem | hhub
                  · exact Or.inl (c2.2.1 t hmem)
                  · exact Or.inr hhub
                · exact c3 p hp hpr
              · intro t ht hsh2
                rcases List.mem_cons.mp ht with rfl | htl
                · exact Or.inl (c2.1 t (r1mono.1 t
                    (List.mem_append_right _ (List.mem_singleton_self t))))
                · exact c4 t htl hsh2
      obtain ⟨f1, f2, f3, f4⟩ := hfold (outgoingOf rels files path)
        ⟨st.connected, st.sharedDeps, st.visited ++ [path]⟩ ⟨h.1, h.2⟩
      refine ⟨f1, ⟨?_, ?_, ?_⟩, ?_⟩
      · intro x hx
        exact f2.1 x hx
      · intro x hx
        exact f2.2.1 x hx
      · intro x hx
        exact f2.2.2 x (List.mem_append_left _ hx)
      · intro p hp hnp t ht hsht
        by_cases hpp : p = path
        · subst hpp
          rcases f4 t ht hsht with hc | hd
          · rcases f1.1 t hc with hh | hf
            · exact Or.inr hh
            · rw [hf] at hsht
              exact absurd hsht Bool.false_ne_true
          · exact Or.inl hd
        · refine f3 p hp ?_ t ht hsht
          intro hmem
          rcases List.mem_append.mp hmem with h1 | h2
          · exact hnp h1
          · exact hpp (List.mem_singleton.mp h2)

theorem traverseFuel_ext (rels1 rels2 : List Relationship)
    (files1 files2 : List DetectionFile) (hub : String)
    (hagree : ∀ p, isSharedInfrastructure p = false →
      outgoingOf rels1 files1 p = outgoingOf rels2 files2 p)
    (hhub : outgoingOf rels1 files1 hub = outgoingOf rels2 files2 hub) :
    ∀ (fuel : Nat) (path : String) (st : TravSt),
      isSharedInfrastructure path = false ∨ path = hub →
      traverseFuel rels1 files1 fuel path st =
        traverseFuel rels2 files2 fuel path st := by
  intro fuel
  induction fuel with
  | zero =>
    intro path st _
    rfl
  | succ n ih =>
    intro path st hp
    cases hv : st.visited.contains path with
    | true =>
      have e1 : traverseFuel rels1 files1 (n + 1) path st = st := by
        unfold traverseFuel
        rw [hv]
        rw [if_pos rfl]
      have e2 : traverseFuel rels2 files2 (n + 1) path st = st := by
        unfold traverseFuel
        rw [hv]
        rw [if_pos rfl]
      rw [e1, e2]
    | false =>
      rw [traverseFuel_succ rels1 files1 n path st hv,
        traverseFuel_succ rels2 files2 n path st hv]
      have ho : outgoingOf rels1 files1 path =
          outgoingOf rels2 files2 path := by
        rcases hp with hp1 | hp2
        · exact hagree path hp1
        · rw [hp2]
          exact hhub
      rw [← ho]
      refine List.foldl_ext _ _ _ ?_
      intro s t _
      unfold travStep
      by_cases hin : s.connected.contains t = true ∨
          s.sharedDeps.contains t = true
      · rw [if_pos hin, if_pos hin]
      · rw [if_neg hin, if_neg hin]
        by_cases hsh : isSharedInfrastructure t = true
        · rw [if_pos hsh, if_pos hsh]
        · rw [if_neg hsh, if_neg hsh]
          exact ih t ⟨s.connected ++ [t], s.sharedDeps, s.visited⟩
            (Or.inl (Bool.not_eq_true _ ▸ hsh))

/-- C5 amended: in the traversal of `findConnectedFiles`, (1) no file
    other than the hub itself is a connected (allFiles) member while
    matching a shared-infrastructure pattern, (2) every entry of
    `sharedDependencies` matches a shared pattern, (3) every shared
    target reached from an expanded file is recorded in
    `sharedDependencies` (or is the hub itself), and (4) the result is
    unchanged under any modification of the outgoing edges of shared
    non-hub files — shared files reached by the traversal are recorded
    without their imports ever being consulted.  (A hub that itself
    matches a shared pattern is still included and traversed, the
    correction the counterexample forces.) -/
theorem c5_shared_infra_amended (hubPath : String)
    (relationships : List Relationship) (files : List DetectionFile)
    (maxDepth : Nat) :
    (∀ x ∈ (findConnectedFiles hubPath relationships files maxDepth).1,
      x = hubPath ∨ isSharedInfrastructure x = false) ∧
    (∀ y ∈ (findConnectedFiles hubPath relationships files maxDepth).2,
      isSharedInfrastructure y = true) ∧
    (∀ p ∈ (traverseFuel relationships files (maxDepth + 1) hubPath
        ⟨[hubPath], [], []⟩).visited,
      ∀ t ∈ outgoingOf relationships files p,
        isSharedInfrastructure t = true →
        t ∈ (findConnectedFiles hubPath relationships files maxDepth).2 ∨
          t = hubPath) ∧
    (∀ (rels2 : List Relationship) (files2 : List DetectionFile),
      (∀ p, isSharedInfrastructure p = false →
        outgoingOf relationships files p = outgoingOf rels2 files2 p) →
      outgoingOf relationships files hubPath =
        outgoingOf rels2 files2 hubPath →
      findConnectedFiles hubPath relationships files maxDepth =
        findConnectedFiles hubPath rels2 files2 maxDepth) := by
  have h0 : C5Inv hubPath ⟨[hubPath], [], []⟩ := by
    refine ⟨?_, ?_⟩
    · intro x hx
      exact Or.inl (List.mem_singleton.mp hx)
    · intro y hy
      cases hy
  obtain ⟨hinv, _, hnew⟩ := traverseFuel_props relationships files
    hubPath (maxDepth + 1) hubPath ⟨[hubPath], [], []⟩ h0
  refine ⟨hinv.1, hinv.2, ?_, ?_⟩
  · intro p hp t ht hsh
    exact hnew p hp (fun hx => absurd hx (List.not_mem_nil p)) t ht hsh
  · intro rels2 files2 hagree hhub
    unfold findConnectedFiles
    rw [traverseFuel_ext relationships rels2 files files2 hubPath hagree
      hhub (maxDepth + 1) hubPath ⟨[hubPath], [], []⟩ (Or.inr rfl)]

/-- Witness for C5 at a concrete input: the hub imports the shared
    `x/lib/utils.ts`, which itself has an import (`y.js`) and an extra
    outgoing relationship edge (`y2.js`) in a second configuration;
    the shared file is recorded in `sharedDependencies` only, the
    traversal result is identical with and without the shared file's
    extra edge, and neither `y.js` nor `y2.js` is reached. -/
theorem c5_shared_infra_amended_witness :
    ("a.js" = "h.js" ∨ isSharedInfrastructure "a.js" = false) ∧
    ("x/lib/utils.ts" ∈ (findConnectedFiles "h.js" []
      [⟨"h.js", "route", "backend", [], ["x/lib/utils.ts", "a.js"]⟩,
       ⟨"x/lib/utils.ts", "utility", "shared", [], ["y.js"]⟩,
       ⟨"a.js", "utility", "shared", [], []⟩] 2).2 ∨
      "x/lib/utils.ts" = "h.js") ∧
    findConnectedFiles "h.js" []
      [⟨"h.js", "route", "backend", [], ["x/lib/utils.ts", "a.js"]⟩,
       ⟨"x/lib/utils.ts", "utility", "shared", [], ["y.js"]⟩,
       ⟨"a.js", "utility", "shared", [], []⟩] 2 =
      findConnectedFiles "h.js"
        [⟨"x/lib/utils.ts", "y2.js", "imports"⟩]
        [⟨"h.js", "route", "backend", [], ["x/lib/utils.ts", "a.js"]⟩,
         ⟨"x/lib/utils.ts", "utility", "shared", [], ["y.js"]⟩,
         ⟨"a.js", "utility", "shared", [], []⟩] 2 ∧
    findConnectedFiles "h.js"
      [⟨"x/lib/utils.ts", "y2.js", "imports"⟩]
      [⟨"h.js", "route", "backend", [], ["x/lib/utils.ts", "a.js"]⟩,
       ⟨"x/lib/utils.ts", "utility", "shared", [], ["y.js"]⟩,
       ⟨"a.js", "utility", "shared", [], []⟩] 2 =
      (["h.js", "a.js"], ["x/lib/utils.ts"]) :=
  ⟨(c5_shared_infra_amended "h.js" []
      [⟨"h.js", "route", "backend", [], ["x/lib/utils.ts", "a.js"]⟩,
       ⟨"x/lib/utils.ts", "utility", "shared", [], ["y.js"]⟩,
       ⟨"a.js", "utility", "shared", [], []⟩] 2).1 "a.js" (by decide),
   (c5_shared_infra_amended "h.js" []
      [⟨"h.js", "route", "backend", [], ["x/lib/utils.ts", "a.js"]⟩,
       ⟨"x/lib/utils.ts", "utility", "shared", [], ["y.js"]⟩,
       ⟨"a.js", "utility", "shared", [], []⟩] 2).2.2.1 "h.js" (by decide)
      "x/lib/utils.ts" (by decide) (by decide),
   (c5_shared_infra_amended "h.js" []
      [⟨"h.js", "route", "backend", [], ["x/lib/utils.ts", "a.js"]⟩,
       ⟨"x/lib/utils.ts", "utility", "shared", [], ["y.js"]⟩,
       ⟨"a.js", "utility", "shared", [], []⟩] 2).2.2.2
      [⟨"x/lib/utils.ts", "y2.js", "imports"⟩]
      [⟨"h.js", "route", "backend", [], ["x/lib/utils.ts", "a.js"]⟩,
       ⟨"x/lib/utils.ts", "utility", "shared", [], ["y.js"]⟩,
       ⟨"a.js", "utility", "shared", [], []⟩]
      (by
        intro p hp
        by_cases hj : jsNorm p = "x/lib/utils.ts"
        · exfalso
          have hs : isSharedInfrastructure p = true := by
            unfold isSharedInfrastructure
            rw [hj]
            decide
          rw [hp] at hs
          exact Bool.false_ne_true hs
        · unfold outgoingOf
          simp only [List.foldl]
          have hc : ¬ (jsNorm "x/lib/utils.ts" = jsNorm p) :=
            fun hq => hj (hq.symm.trans (by decide))
          rw [if_neg hc])
      (by decide),
   by decide⟩

/-- C9: hubs named from `budget.ts`, `budgets.ts` and `Budget.tsx`
    sources produce exactly one feature, keyed by the singular merge
    key `budget`, holding all three hubs. -/
theorem c9_singular_plural_merge :
    (groupHubsByFeature (identifyHubs
      [⟨"server/routes/budget.ts", "route", "backend", [], []⟩,
       ⟨"client/src/api/budgets.ts", "api-client", "frontend", [], []⟩,
       ⟨"client/src/pages/Budget.tsx", "page", "frontend", [], []⟩])).map
      (fun p => (p.1, p.2.name, p.2.hubs.length)) =
      [("budget", "budget", 3)] := by decide


set_option maxRecDepth 100000 in
/-- C2 (Scenario A): the file `server/routes/authRoutes.js`, with a
    content containing `router.post(\x27/login\x27, ...)` and
    `router.post(\x27/register\x27, ...)`, is classified by the scan
    pipeline with type `route` and category `backend`, its
    `analysis.routes` is exactly `[{POST, /login}, {POST, /register}]`,
    and the feature detector assigns it to the feature named `auth`. -/
theorem c2_scenario_a :
    (((scanProjectFiles [("server/routes/authRoutes.js",
        some "router.post(\x27/login\x27, a);\nrouter.post(\x27/register\x27, b);\n")]).map
      (fun f => (f.ftype, f.category, f.analysis.routes))),
    ((scanProjectFeatures [("server/routes/authRoutes.js",
        some "router.post(\x27/login\x27, a);\nrouter.post(\x27/register\x27, b);\n")]).map
      (fun p => (p.1, p.2.allFiles.contains "server/routes/authRoutes.js")))) =
      ([("route", "backend",
        [⟨"POST", "/login"⟩, ⟨"POST", "/register"⟩])],
       [("auth", true)]) := by
  rfl

/-- C3: the content scorer returns a classification iff the maximum
    per-type score is at least 8, with confidence min(score/22, 1);
    the orchestrator takes the content type and role exactly when the
    content result exists with confidence at least 0.5 and the
    path-based ones otherwise, and the category is always the path
    classifier's. -/
theorem c3_threshold_merge_category (relativePath content : String)
    (paths : List String) :
    ((classifyByContent content).isSome ↔ 8 ≤ maxContentScore content) ∧
    (∀ r, classifyByContent content = some r →
      r.confidence =
        jsMin (jsDiv (maxContentScore content) 22) (jsOfNat 1)) ∧
    (∀ r, classifyByContent content = some r →
      jsLe (jsDiv 1 2) r.confidence = true →
      (processFile relativePath (some content) paths).ftype = r.ctype ∧
      (processFile relativePath (some content) paths).role = r.role) ∧
    (∀ r, classifyByContent content = some r →
      jsLe (jsDiv 1 2) r.confidence = false →
      (processFile relativePath (some content) paths).ftype =
        (classifyByPath relativePath).ptype ∧
      (processFile relativePath (some content) paths).role =
        (classifyByPath relativePath).role) ∧
    (classifyByContent content = none →
      (processFile relativePath (some content) paths).ftype =
        (classifyByPath relativePath).ptype ∧
      (processFile relativePath (some content) paths).role =
        (classifyByPath relativePath).role) ∧
    (processFile relativePath (some content) paths).category =
      (classifyByPath relativePath).category := by
  have hft : (processFile relativePath (some content) paths).ftype =
      (mergeClassification (classifyByPath relativePath)
        (if jsTruthy content then classifyByContent content
         else none)).1 := rfl
  have hrole : (processFile relativePath (some content) paths).role =
      (mergeClassification (classifyByPath relativePath)
        (if jsTruthy content then classifyByContent content
         else none)).2 := rfl
  have hite : (if jsTruthy content then classifyByContent content
      else none) = classifyByContent content := by
    cases hc : jsTruthy content with
    | true => simp
    | false =>
      have hce : content = "" := by simpa [jsTruthy] using hc
      subst hce
      decide
  refine ⟨?_, ?_, ?_, ?_, ?_, rfl⟩
  · unfold classifyByContent
    cases hc : jsTruthy content with
    | false =>
      have hce : content = "" := by simpa [jsTruthy] using hc
      subst hce
      decide
    | true =>
      rw [if_neg (by simp)]
      simp only []
      rw [maxEntry_fst_eq content]
      generalize hms : maxContentScore content = ms
      by_cases h8 : ms ≥ 8
      · rw [if_pos h8]
        simpa using h8
      · rw [if_neg h8]
        simpa using h8
  · intro r h
    unfold classifyByContent at h
    cases hc : jsTruthy content with
    | false => rw [hc] at h; simp at h
    | true =>
      rw [hc] at h
      rw [if_neg (by simp)] at h
      simp only [] at h
      rw [maxEntry_fst_eq content] at h
      generalize hms : maxContentScore content = ms at h ⊢
      by_cases h8 : ms ≥ 8
      · rw [if_pos h8] at h
        have h3 := Option.some.inj h
        rw [← h3]
      · rw [if_neg h8] at h
        cases h
  · intro r h hle
    rw [hft, hrole, hite, h]
    simp only [mergeClassification]
    rw [if_pos hle]
    exact ⟨rfl, rfl⟩
  · intro r h hle
    rw [hft, hrole, hite, h]
    simp only [mergeClassification]
    rw [if_neg (by simp [hle])]
    exact ⟨rfl, rfl⟩
  · intro h
    rw [hft, hrole, hite, h]
    exact ⟨rfl, rfl⟩

/-- Witness for C3 at a concrete routes file: the scorer fires (score
    at least 8), and with confidence 1 the override branch applies, so
    the pipeline type is `route`; the category stays the path
    classifier's. -/
theorem c3_threshold_merge_category_witness :
    ((classifyByContent "router.post(\x27/x\x27, h);").isSome ↔
      8 ≤ maxContentScore "router.post(\x27/x\x27, h);") ∧
    (processFile "server/routes/a.js"
      (some "router.post(\x27/x\x27, h);") []).ftype = "route" ∧
    (processFile "server/routes/a.js"
      (some "router.post(\x27/x\x27, h);") []).category =
      (classifyByPath "server/routes/a.js").category :=
  ⟨(c3_threshold_merge_category "server/routes/a.js"
      "router.post(\x27/x\x27, h);" []).1,
   ((c3_threshold_merge_category "server/routes/a.js"
      "router.post(\x27/x\x27, h);" []).2.2.1
      ⟨"route", "API route handler", ⟨1, 1⟩⟩ (by decide) (by decide)).1,
   (c3_threshold_merge_category "server/routes/a.js"
      "router.post(\x27/x\x27, h);" []).2.2.2.2.2⟩

/-- C7 counterexample: a 2MB file is read as null, but the scanner
    record stores `content || \x27\x27`, so the recorded content is the
    empty string, not null. -/
theorem c7_content_not_null_counterexample :
    readFileContent (2 * 1024 * 1024) "x" = none ∧
    (processFile "assets/big.js" (readFileContent (2 * 1024 * 1024) "x")
      ["assets/big.js"]).contentVal = some "" := by
  exact ⟨by decide, rfl⟩

/-- C7 amended: a file over the 1MB threshold is read as null and is
    still recorded, with content stored as the empty string, its type,
    role and category all from path classification alone, and an
    analysis in which every field is the empty collection. -/
theorem c7_oversized_file_amended (relativePath text : String)
    (paths : List String) (size : Nat) (h : size > 1024 * 1024) :
    readFileContent size text = none ∧
    (processFile relativePath (readFileContent size text)
      paths).contentVal = some "" ∧
    (processFile relativePath (readFileContent size text)
      paths).ftype = (classifyByPath relativePath).ptype ∧
    (processFile relativePath (readFileContent size text)
      paths).role = (classifyByPath relativePath).role ∧
    (processFile relativePath (readFileContent size text)
      paths).category = (classifyByPath relativePath).category ∧
    (processFile relativePath (readFileContent size text)
      paths).analysis = emptyAnalysis := by
  have hr : readFileContent size text = none := by
    unfold readFileContent
    rw [if_pos h]
  rw [hr]
  exact ⟨rfl, rfl, rfl, rfl, rfl, rfl⟩

/-- Witness for C7 amended, at a 2MB file. -/
theorem c7_oversized_file_amended_witness :
    readFileContent (2 * 1024 * 1024) "const x = 1;" = none ∧
    (processFile "assets/big2.js"
      (readFileContent (2 * 1024 * 1024) "const x = 1;")
      ["assets/big2.js"]).contentVal = some "" ∧
    (processFile "assets/big2.js"
      (readFileContent (2 * 1024 * 1024) "const x = 1;")
      ["assets/big2.js"]).ftype =
      (classifyByPath "assets/big2.js").ptype ∧
    (processFile "assets/big2.js"
      (readFileContent (2 * 1024 * 1024) "const x = 1;")
      ["assets/big2.js"]).role =
      (classifyByPath "assets/big2.js").role ∧
    (processFile "assets/big2.js"
      (readFileContent (2 * 1024 * 1024) "const x = 1;")
      ["assets/big2.js"]).category =
      (classifyByPath "assets/big2.js").category ∧
    (processFile "assets/big2.js"
      (readFileContent (2 * 1024 * 1024) "const x = 1;")
      ["assets/big2.js"]).analysis = emptyAnalysis :=
  c7_oversized_file_amended "assets/big2.js" "const x = 1;"
    ["assets/big2.js"] (2 * 1024 * 1024) (by decide)

end CodeAtlas
